import Mathlib

/-!
Verification development for the Aether language front end
(lexer, parser, symbol extraction, diagnostics), shallowly embedded
from the Rust sources `src/lexer.rs`, `src/token.rs`, `src/ast.rs`,
`src/parser.rs`, `src/symbols.rs`, `src/diagnostics.rs`.

Modelling conventions:
* Rust `char` Unicode classes (`is_alphabetic`, `is_numeric`,
  `is_alphanumeric`, `is_uppercase`) are modelled on the ASCII range;
  every input appearing in the verified properties is ASCII, where the
  two notions agree.  `is_ascii_uppercase` / `is_ascii_digit` used by
  the diagnostics module are exact.
* `f64` is not modelled: the `Number` token/AST payload carries the
  scanned literal string instead of the parsed double.  On every string
  the scanner can produce (a non-empty digit run with at most one
  interior dot followed by a digit) `str::parse::<f64>` succeeds, so the
  `Illegal('0')` fallback of `read_number` is unreachable and is not
  modelled.
* Loops and recursion are driven by explicit fuel.  Fuel bounds that
  depend only on the state (remaining input length) are computed inside
  the wrappers and are always sufficient; the parser takes an explicit
  fuel argument and a dedicated `fuel_exhausted` error marks the
  (unreachable for sufficient fuel) exhaustion case.
-/

namespace Aether

/-! ## Character classes (`char` methods used by the Rust sources) -/

/-- Model of Rust `char::is_numeric` (ASCII digits). -/
def char_is_numeric (c : Char) : Bool :=
  48 ≤ c.toNat && c.toNat ≤ 57

/-- Model of Rust `char::is_alphabetic` (ASCII letters). -/
def char_is_alphabetic (c : Char) : Bool :=
  (65 ≤ c.toNat && c.toNat ≤ 90) || (97 ≤ c.toNat && c.toNat ≤ 122)

/-- Model of Rust `char::is_alphanumeric` (ASCII letters and digits). -/
def char_is_alphanumeric (c : Char) : Bool :=
  char_is_alphabetic c || char_is_numeric c

/-- Model of Rust `char::is_uppercase` (ASCII uppercase letters). -/
def char_is_uppercase (c : Char) : Bool :=
  65 ≤ c.toNat && c.toNat ≤ 90

/-- Rust `char::is_ascii_uppercase` (exact). -/
def char_is_ascii_uppercase (c : Char) : Bool :=
  65 ≤ c.toNat && c.toNat ≤ 90

/-- Rust `char::is_ascii_digit` (exact). -/
def char_is_ascii_digit (c : Char) : Bool :=
  48 ≤ c.toNat && c.toNat ≤ 57

/-- Rust `str::to_uppercase`, on the ASCII range. -/
def to_uppercase (s : String) : String :=
  String.mk (s.data.map Char.toUpper)

/-! ## Tokens (`src/token.rs`) -/

/-- Alias used for payload types inside inductives that also declare a
constructor named `String`. -/
abbrev Str := String

set_option maxHeartbeats 4000000

/-- `Token` from `src/token.rs`.  `Number` carries the scanned literal
string in place of the Rust `f64` payload (see module header). -/
inductive Token where
  | Set | Func | Return | If | Elif | Else | While | For | In
  | Break | Continue | Generator | Yield | Lazy | Force | Switch
  | Case | Default | Import | Export | From | As | Lambda | Throw
  | Try | Catch
  | Number (s : Str)
  | BigInteger (s : Str)
  | String (s : Str)
  | Boolean (b : Bool)
  | Null
  | Identifier (name : Str)
  | Plus | Minus | Multiply | Divide | Modulo
  | Assign | Equal | NotEqual | Greater | GreaterEqual | Less | LessEqual
  | And | Or | Not | Arrow
  | LeftParen | RightParen | LeftBracket | RightBracket
  | LeftBrace | RightBrace | Comma | Colon | Semicolon | Newline
  | EOF
  | Illegal (c : Char)
  deriving Repr

/-- Constructor tag of a token (used only to build a shallow
`DecidableEq` instance; the derived one produces an enormous term). -/
def Token.tag : Token → Nat
  | .Set => 0 | .Func => 1 | .Return => 2 | .If => 3 | .Elif => 4
  | .Else => 5 | .While => 6 | .For => 7 | .In => 8 | .Break => 9
  | .Continue => 10 | .Generator => 11 | .Yield => 12 | .Lazy => 13
  | .Force => 14 | .Switch => 15 | .Case => 16 | .Default => 17
  | .Import => 18 | .Export => 19 | .From => 20 | .As => 21
  | .Lambda => 22 | .Throw => 23 | .Try => 24 | .Catch => 25
  | .Number _ => 26 | .BigInteger _ => 27 | .String _ => 28
  | .Boolean _ => 29 | .Null => 30 | .Identifier _ => 31
  | .Plus => 32 | .Minus => 33 | .Multiply => 34 | .Divide => 35
  | .Modulo => 36 | .Assign => 37 | .Equal => 38 | .NotEqual => 39
  | .Greater => 40 | .GreaterEqual => 41 | .Less => 42 | .LessEqual => 43
  | .And => 44 | .Or => 45 | .Not => 46 | .Arrow => 47
  | .LeftParen => 48 | .RightParen => 49 | .LeftBracket => 50
  | .RightBracket => 51 | .LeftBrace => 52 | .RightBrace => 53
  | .Comma => 54 | .Colon => 55 | .Semicolon => 56 | .Newline => 57
  | .EOF => 58 | .Illegal _ => 59

/-- String payload of a token (default `""`). -/
def Token.str_payload : Token → Str
  | .Number s | .BigInteger s | .String s | .Identifier s => s
  | _ => ""

/-- Bool payload of a token (default `false`). -/
def Token.bool_payload : Token → Bool
  | .Boolean b => b
  | _ => false

/-- Char payload of a token (default `'a'`). -/
def Token.char_payload : Token → Char
  | .Illegal c => c
  | _ => 'a'

/-- Injective flat encoding of a token. -/
def Token.encode (t : Token) : Nat × Str × Bool × Char :=
  (t.tag, t.str_payload, t.bool_payload, t.char_payload)

/-- Left inverse of `Token.encode`. -/
def Token.decode : Nat × Str × Bool × Char → Token
  | (0, _, _, _) => .Set | (1, _, _, _) => .Func | (2, _, _, _) => .Return
  | (3, _, _, _) => .If | (4, _, _, _) => .Elif | (5, _, _, _) => .Else
  | (6, _, _, _) => .While | (7, _, _, _) => .For | (8, _, _, _) => .In
  | (9, _, _, _) => .Break | (10, _, _, _) => .Continue
  | (11, _, _, _) => .Generator | (12, _, _, _) => .Yield
  | (13, _, _, _) => .Lazy | (14, _, _, _) => .Force
  | (15, _, _, _) => .Switch | (16, _, _, _) => .Case
  | (17, _, _, _) => .Default | (18, _, _, _) => .Import
  | (19, _, _, _) => .Export | (20, _, _, _) => .From
  | (21, _, _, _) => .As | (22, _, _, _) => .Lambda
  | (23, _, _, _) => .Throw | (24, _, _, _) => .Try
  | (25, _, _, _) => .Catch
  | (26, s, _, _) => .Number s | (27, s, _, _) => .BigInteger s
  | (28, s, _, _) => .String s | (29, _, b, _) => .Boolean b
  | (30, _, _, _) => .Null | (31, s, _, _) => .Identifier s
  | (32, _, _, _) => .Plus | (33, _, _, _) => .Minus
  | (34, _, _, _) => .Multiply | (35, _, _, _) => .Divide
  | (36, _, _, _) => .Modulo | (37, _, _, _) => .Assign
  | (38, _, _, _) => .Equal | (39, _, _, _) => .NotEqual
  | (40, _, _, _) => .Greater | (41, _, _, _) => .GreaterEqual
  | (42, _, _, _) => .Less | (43, _, _, _) => .LessEqual
  | (44, _, _, _) => .And | (45, _, _, _) => .Or
  | (46, _, _, _) => .Not | (47, _, _, _) => .Arrow
  | (48, _, _, _) => .LeftParen | (49, _, _, _) => .RightParen
  | (50, _, _, _) => .LeftBracket | (51, _, _, _) => .RightBracket
  | (52, _, _, _) => .LeftBrace | (53, _, _, _) => .RightBrace
  | (54, _, _, _) => .Comma | (55, _, _, _) => .Colon
  | (56, _, _, _) => .Semicolon | (57, _, _, _) => .Newline
  | (58, _, _, _) => .EOF | (59, _, _, c) => .Illegal c
  | _ => .EOF

theorem Token.decode_encode (t : Token) : Token.decode (Token.encode t) = t := by
  cases t <;> rfl

instance : DecidableEq Token := fun a b =>
  if ht : Token.tag a = Token.tag b then
    if h : Token.encode a = Token.encode b then
      .isTrue (by rw [← Token.decode_encode a, ← Token.decode_encode b, h])
    else
      .isFalse (fun he => h (congrArg Token.encode he))
  else
    .isFalse (fun he => ht (congrArg Token.tag he))

/-- `Token::lookup_keyword`. -/
def Token.lookup_keyword (ident : Str) : Token :=
  if ident = "Set" then .Set
  else if ident = "Func" then .Func
  else if ident = "Return" then .Return
  else if ident = "If" then .If
  else if ident = "Elif" then .Elif
  else if ident = "Else" then .Else
  else if ident = "While" then .While
  else if ident = "For" then .For
  else if ident = "In" then .In
  else if ident = "Break" then .Break
  else if ident = "Continue" then .Continue
  else if ident = "Generator" then .Generator
  else if ident = "Yield" then .Yield
  else if ident = "Lazy" then .Lazy
  else if ident = "Force" then .Force
  else if ident = "Switch" then .Switch
  else if ident = "Case" then .Case
  else if ident = "Default" then .Default
  else if ident = "Import" then .Import
  else if ident = "Export" then .Export
  else if ident = "From" then .From
  else if ident = "As" then .As
  else if ident = "Lambda" then .Lambda
  else if ident = "Throw" then .Throw
  else if ident = "Try" then .Try
  else if ident = "Catch" then .Catch
  else if ident = "True" then .Boolean true
  else if ident = "False" then .Boolean false
  else if ident = "Null" then .Null
  else .Identifier ident

/-! ## Lexer (`src/lexer.rs`)

The Rust lexer keeps `input`, `position`, `read_position` and the
current char `ch`.  We keep the current char and `rest`, the list of
characters from `read_position` on; `peek_char` is the head of `rest`
and `peek_char_n n` indexes `ch :: rest` (offset from `position`).
The `had_whitespace_before_token` field is returned by `next_token`
instead of being stored. -/

structure Lexer where
  rest : List Char
  ch : Char
  line : Nat
  column : Nat
  deriving DecidableEq, Repr

namespace Lexer

/-- `Lexer::read_char`: load the next character (`'\0'` at EOF) and
update line/column tracking exactly as the source does (the line
counter is bumped when the loaded character is a newline). -/
def read_char (l : Lexer) : Lexer :=
  let c := l.rest.headD '\x00'
  { rest := l.rest.tail
    ch := c
    line := if c = '\n' then l.line + 1 else l.line
    column := if c = '\n' then 0 else l.column + 1 }

/-- `Lexer::new`: initial state (line 1, column 0, `ch = '\0'`)
followed by one `read_char`. -/
def new (input : String) : Lexer :=
  read_char { rest := input.data, ch := '\x00', line := 1, column := 0 }

/-- `Lexer::peek_char`. -/
def peek_char (l : Lexer) : Char :=
  l.rest.headD '\x00'

/-- `Lexer::peek_char_n`: character `n` positions after the current one. -/
def peek_char_n (l : Lexer) (n : Nat) : Char :=
  (l.ch :: l.rest).getD n '\x00'

/-- Loop body of `Lexer::skip_whitespace`; `skipped` accumulates the
return flag.  Fuel is supplied by the wrapper and is always enough. -/
def skip_whitespace_aux : Nat → Lexer → Bool → Bool × Lexer
  | 0, l, skipped => (skipped, l)
  | fuel + 1, l, skipped =>
    if l.ch = ' ' ∨ l.ch = '\t' ∨ l.ch = '\r' then
      skip_whitespace_aux fuel (read_char l) true
    else
      (skipped, l)

/-- `Lexer::skip_whitespace`. -/
def skip_whitespace (l : Lexer) : Bool × Lexer :=
  skip_whitespace_aux (l.rest.length + 2) l false

/-- Loop body of `Lexer::skip_line_comment`. -/
def skip_line_comment_aux : Nat → Lexer → Lexer
  | 0, l => l
  | fuel + 1, l =>
    if l.ch ≠ '\n' ∧ l.ch ≠ '\x00' then
      skip_line_comment_aux fuel (read_char l)
    else
      l

/-- `Lexer::skip_line_comment`. -/
def skip_line_comment (l : Lexer) : Lexer :=
  skip_line_comment_aux (l.rest.length + 2) l

/-- Scan loop of `Lexer::skip_block_comment`.  Note the manual
`line += 1` on a newline, in addition to the increment `read_char`
already performed when that newline was loaded. -/
def skip_block_comment_aux : Nat → Lexer → Lexer
  | 0, l => l
  | fuel + 1, l =>
    if ¬(l.ch = '*' ∧ l.peek_char = '/') ∧ l.ch ≠ '\x00' then
      let l := if l.ch = '\n' then { l with line := l.line + 1, column := 0 } else l
      skip_block_comment_aux fuel (read_char l)
    else
      l

/-- `Lexer::skip_block_comment`. -/
def skip_block_comment (l : Lexer) : Lexer :=
  let l := read_char l
  let l := read_char l
  let l := skip_block_comment_aux (l.rest.length + 2) l
  if l.ch ≠ '\x00' then read_char (read_char l) else l

/-- Scan loop of `Lexer::read_identifier`; `acc` accumulates the
characters of `input[start..position]`. -/
def read_identifier_aux : Nat → Lexer → List Char → List Char × Lexer
  | 0, l, acc => (acc, l)
  | fuel + 1, l, acc =>
    if char_is_alphanumeric l.ch = true ∨ l.ch = '_' then
      read_identifier_aux fuel (read_char l) (acc ++ [l.ch])
    else
      (acc, l)

/-- `Lexer::read_identifier`. -/
def read_identifier (l : Lexer) : Token × Lexer :=
  let (acc, l) := read_identifier_aux (l.rest.length + 2) l []
  (Token.lookup_keyword (String.mk acc), l)

/-- Scan loop of `Lexer::read_number`; returns the `has_dot` flag, the
accumulated characters of the literal and the final state. -/
def read_number_aux : Nat → Lexer → Bool → List Char → Bool × List Char × Lexer
  | 0, l, has_dot, acc => (has_dot, acc, l)
  | fuel + 1, l, has_dot, acc =>
    if char_is_numeric l.ch = true ∨ (l.ch = '.' ∧ has_dot = false) then
      if l.ch = '.' ∧ char_is_numeric l.peek_char = false then
        (has_dot, acc, l)
      else
        let has_dot := if l.ch = '.' then true else has_dot
        read_number_aux fuel (read_char l) has_dot (acc ++ [l.ch])
    else
      (has_dot, acc, l)

/-- `Lexer::read_number`.  The `f64` parse is abstracted: `Number`
carries the literal string (see module header); the parse-failure
branch `Token::Illegal('0')` is unreachable on scanner output. -/
def read_number (l : Lexer) : Token × Lexer :=
  let (has_dot, acc, l) := read_number_aux (l.rest.length + 2) l false []
  let num_str := String.mk acc
  if has_dot = false ∧ 15 < num_str.length then
    (Token.BigInteger num_str, l)
  else
    (Token.Number num_str, l)

/-- `Lexer::process_escapes`. -/
def process_escapes : List Char → List Char
  | [] => []
  | '\\' :: rest =>
    match rest with
    | [] => ['\\']
    | c :: rest =>
      if c = 'n' then '\n' :: process_escapes rest
      else if c = 't' then '\t' :: process_escapes rest
      else if c = 'r' then '\r' :: process_escapes rest
      else if c = '\\' then '\\' :: process_escapes rest
      else if c = '"' then '"' :: process_escapes rest
      else '\\' :: c :: process_escapes rest
  | c :: rest => c :: process_escapes rest

/-- Scan loop of `Lexer::read_string`; `acc` accumulates
`input[start..position]` (escape pairs included verbatim).  The manual
line bump on a raw newline duplicates the one `read_char` already did. -/
def read_string_aux : Nat → Lexer → List Char → Option (List Char) × Lexer
  | 0, l, _ => (none, l)
  | fuel + 1, l, acc =>
    if l.ch ≠ '"' ∧ l.ch ≠ '\x00' then
      if l.ch = '\\' then
        let acc := acc ++ [l.ch]
        let l := read_char l
        if l.ch ≠ '\x00' then
          read_string_aux fuel (read_char l) (acc ++ [l.ch])
        else
          read_string_aux fuel l acc
      else
        let l := if l.ch = '\n' then { l with line := l.line + 1, column := 0 } else l
        read_string_aux fuel (read_char l) (acc ++ [l.ch])
    else
      (some acc, l)

/-- `Lexer::read_string`.  `none` from the loop means the fuel ran out
(unreachable); reaching `'\0'` yields `Illegal('"')` as in the source. -/
def read_string (l : Lexer) : Token × Lexer :=
  let l := read_char l
  match read_string_aux (l.rest.length + 4) l [] with
  | (none, l) => (Token.Illegal '"', l)
  | (some acc, l) =>
    if l.ch = '\x00' then
      (Token.Illegal '"', l)
    else
      (Token.String (String.mk (process_escapes acc)), read_char l)

/-- Scan loop of `Lexer::read_multiline_string`.  Same duplicated
line bump on embedded newlines as the source. -/
def read_multiline_string_aux : Nat → Lexer → List Char → Option (List Char) × Lexer
  | 0, l, _ => (none, l)
  | fuel + 1, l, acc =>
    if l.ch = '\x00' then
      (none, l)
    else if l.ch = '"' ∧ l.peek_char = '"' ∧ l.peek_char_n 2 = '"' then
      (some acc, read_char (read_char (read_char l)))
    else
      let l := if l.ch = '\n' then { l with line := l.line + 1, column := 0 } else l
      read_multiline_string_aux fuel (read_char l) (acc ++ [l.ch])

/-- `Lexer::read_multiline_string`. -/
def read_multiline_string (l : Lexer) : Token × Lexer :=
  let l := read_char (read_char (read_char l))
  match read_multiline_string_aux (l.rest.length + 2) l [] with
  | (none, l) => (Token.Illegal '"', l)
  | (some acc, l) => (Token.String (String.mk (process_escapes acc)), l)

/-- `Lexer::next_token`, written as the source's `match` on the current
character compiled to an if-chain; the explicit fuel only bounds the
recursion after a skipped comment. -/
def next_token_aux : Nat → Lexer → Token × Bool × Lexer
  | 0, l => (Token.EOF, false, l)
  | fuel + 1, l =>
    let (had_ws, l) := skip_whitespace l
    let single (t : Token) (l : Lexer) : Token × Bool × Lexer := (t, had_ws, read_char l)
    if l.ch = '+' then single .Plus l
    else if l.ch = '-' then
      if l.peek_char = '>' then single .Arrow (read_char l) else single .Minus l
    else if l.ch = '*' then single .Multiply l
    else if l.ch = '/' then
      if l.peek_char = '/' then
        let l := skip_line_comment l
        next_token_aux fuel l
      else if l.peek_char = '*' then
        let l := skip_block_comment l
        next_token_aux fuel l
      else single .Divide l
    else if l.ch = '%' then single .Modulo l
    else if l.ch = '=' then
      if l.peek_char = '=' then single .Equal (read_char l) else single .Assign l
    else if l.ch = '!' then
      if l.peek_char = '=' then single .NotEqual (read_char l) else single .Not l
    else if l.ch = '<' then
      if l.peek_char = '=' then single .LessEqual (read_char l) else single .Less l
    else if l.ch = '>' then
      if l.peek_char = '=' then single .GreaterEqual (read_char l) else single .Greater l
    else if l.ch = '&' then
      if l.peek_char = '&' then single .And (read_char l) else single (.Illegal '&') l
    else if l.ch = '|' then
      if l.peek_char = '|' then single .Or (read_char l) else single (.Illegal '|') l
    else if l.ch = '(' then single .LeftParen l
    else if l.ch = ')' then single .RightParen l
    else if l.ch = '{' then single .LeftBrace l
    else if l.ch = '}' then single .RightBrace l
    else if l.ch = '[' then single .LeftBracket l
    else if l.ch = ']' then single .RightBracket l
    else if l.ch = ',' then single .Comma l
    else if l.ch = ':' then single .Colon l
    else if l.ch = ';' then single .Semicolon l
    else if l.ch = '"' then
      if l.peek_char = '"' ∧ l.peek_char_n 2 = '"' then
        let (t, l) := read_multiline_string l
        (t, had_ws, l)
      else
        let (t, l) := read_string l
        (t, had_ws, l)
    else if l.ch = '\n' then single .Newline l
    else if l.ch = '\x00' then single .EOF l
    else if char_is_alphabetic l.ch = true ∨ l.ch = '_' then
      let (t, l) := read_identifier l
      (t, had_ws, l)
    else if char_is_numeric l.ch = true then
      let (t, l) := read_number l
      (t, had_ws, l)
    else single (.Illegal l.ch) l

/-- `Lexer::next_token` (returns the token, the whitespace flag and the
advanced lexer). -/
def next_token (l : Lexer) : Token × Bool × Lexer :=
  next_token_aux (l.rest.length + 2) l

end Lexer

/-- One tokenizer output entry: the token, its preceding-whitespace
flag, and the lexer's `line`/`column` right after `next_token`
returned it (this is what `Parser::next_token` records). -/
structure TokEntry where
  tok : Token
  ws : Bool
  line : Nat
  column : Nat
  deriving DecidableEq, Repr

/-- Repeatedly call `next_token` up to and including the first `EOF`. -/
def tokenize_aux : Nat → Lexer → List TokEntry
  | 0, _ => []
  | fuel + 1, l =>
    let (tok, ws, l') := l.next_token
    if tok = Token.EOF then
      [⟨tok, ws, l'.line, l'.column⟩]
    else
      ⟨tok, ws, l'.line, l'.column⟩ :: tokenize_aux fuel l'

/-- Full tokenization of an input string (every non-EOF token consumes
at least one character, so the fuel is sufficient). -/
def tokenize (input : String) : List TokEntry :=
  tokenize_aux (input.length + 2) (Lexer.new input)

/-! ## AST (`src/ast.rs`) -/

/-- `BinOp` from `src/ast.rs`. -/
inductive BinOp where
  | Add | Subtract | Multiply | Divide | Modulo
  | Equal | NotEqual | Less | LessEqual | Greater | GreaterEqual
  | And | Or
  deriving DecidableEq, Repr

/-- `UnaryOp` from `src/ast.rs`. -/
inductive UnaryOp where
  | Minus | Not
  deriving DecidableEq, Repr

mutual

/-- `Expr` from `src/ast.rs` (`Number` carries the literal string,
see module header; `Box` indirections are dropped). -/
inductive Expr where
  | Number (s : Str)
  | BigInteger (s : Str)
  | String (s : Str)
  | Boolean (b : Bool)
  | Null
  | Identifier (name : Str)
  | Array (elements : List Expr)
  | Dict (pairs : List (Str × Expr))
  | Binary (left : Expr) (op : BinOp) (right : Expr)
  | Unary (op : UnaryOp) (expr : Expr)
  | Call (func : Expr) (args : List Expr)
  | Index (object : Expr) (index : Expr)
  | If (condition : Expr) (then_branch : List Stmt)
       (elif_branches : List (Expr × List Stmt)) (else_branch : Option (List Stmt))
  | Lambda (params : List Str) (body : List Stmt)

/-- `Stmt` from `src/ast.rs`. -/
inductive Stmt where
  | Set (name : Str) (value : Expr)
  | SetIndex (object : Expr) (index : Expr) (value : Expr)
  | FuncDef (name : Str) (params : List Str) (body : List Stmt)
  | GeneratorDef (name : Str) (params : List Str) (body : List Stmt)
  | LazyDef (name : Str) (expr : Expr)
  | Return (expr : Expr)
  | Yield (expr : Expr)
  | Break
  | Continue
  | While (condition : Expr) (body : List Stmt)
  | For (var : Str) (iterable : Expr) (body : List Stmt)
  | ForIndexed (index_var : Str) (value_var : Str) (iterable : Expr) (body : List Stmt)
  | Switch (expr : Expr) (cases : List (Expr × List Stmt)) (default : Option (List Stmt))
  | Import (names : List Str) (path : Str) (aliases : List (Option Str))
  | Export (name : Str)
  | Throw (expr : Expr)
  | Expression (expr : Expr)

end

/-- `Program` from `src/ast.rs`. -/
abbrev Program := List Stmt

/-- `Expr::binary`. -/
def Expr.binary (left : Expr) (op : BinOp) (right : Expr) : Expr :=
  Expr.Binary left op right

/-- `Expr::unary`. -/
def Expr.unary (op : UnaryOp) (expr : Expr) : Expr :=
  Expr.Unary op expr

/-- `Expr::call`. -/
def Expr.call (func : Expr) (args : List Expr) : Expr :=
  Expr.Call func args

/-- `Expr::index`. -/
def Expr.index (object : Expr) (index : Expr) : Expr :=
  Expr.Index object index

/-! ## Parse errors (`src/parser.rs`) -/

/-- `ParseError` from `src/parser.rs`.  `fuel_exhausted` is an
artificial extra variant produced only when the explicit fuel of the
embedding runs out (unreachable for sufficient fuel); the Rust
recursion terminates on its own. -/
inductive ParseError where
  | UnexpectedToken (expected : Str) (found : Token) (line : Nat) (column : Nat)
  | UnexpectedEOF (line : Nat) (column : Nat)
  | InvalidNumber (s : Str)
  | InvalidExpression (message : Str) (line : Nat) (column : Nat)
  | InvalidStatement (message : Str) (line : Nat) (column : Nat)
  | InvalidIdentifier (name : Str) (reason : Str) (line : Nat) (column : Nat)
  | fuel_exhausted
  deriving DecidableEq, Repr

/-- The derived `Debug` rendering of a token, used by the `Display`
impl of `ParseError` (`format!("{:?}", …)`).  The `f64` payload of
`Number` is rendered as the scanned literal string and `String`
payloads are not re-escaped (abstractions; no verified property
depends on these strings). -/
def Token.debug_repr : Token → Str
  | .Set => "Set" | .Func => "Func" | .Return => "Return" | .If => "If"
  | .Elif => "Elif" | .Else => "Else" | .While => "While" | .For => "For"
  | .In => "In" | .Break => "Break" | .Continue => "Continue"
  | .Generator => "Generator" | .Yield => "Yield" | .Lazy => "Lazy"
  | .Force => "Force" | .Switch => "Switch" | .Case => "Case"
  | .Default => "Default" | .Import => "Import" | .Export => "Export"
  | .From => "From" | .As => "As" | .Lambda => "Lambda" | .Throw => "Throw"
  | .Try => "Try" | .Catch => "Catch"
  | .Number s => "Number(" ++ s ++ ")"
  | .BigInteger s => "BigInteger(\"" ++ s ++ "\")"
  | .String s => "String(\"" ++ s ++ "\")"
  | .Boolean true => "Boolean(true)"
  | .Boolean false => "Boolean(false)"
  | .Null => "Null"
  | .Identifier n => "Identifier(\"" ++ n ++ "\")"
  | .Plus => "Plus" | .Minus => "Minus" | .Multiply => "Multiply"
  | .Divide => "Divide" | .Modulo => "Modulo" | .Assign => "Assign"
  | .Equal => "Equal" | .NotEqual => "NotEqual" | .Greater => "Greater"
  | .GreaterEqual => "GreaterEqual" | .Less => "Less" | .LessEqual => "LessEqual"
  | .And => "And" | .Or => "Or" | .Not => "Not" | .Arrow => "Arrow"
  | .LeftParen => "LeftParen" | .RightParen => "RightParen"
  | .LeftBracket => "LeftBracket" | .RightBracket => "RightBracket"
  | .LeftBrace => "LeftBrace" | .RightBrace => "RightBrace"
  | .Comma => "Comma" | .Colon => "Colon" | .Semicolon => "Semicolon"
  | .Newline => "Newline" | .EOF => "EOF"
  | .Illegal c => "Illegal('" ++ String.mk [c] ++ "')"

/-- The `Display` impl of `ParseError` (`impl std::fmt::Display`). -/
def ParseError.message : ParseError → Str
  | .UnexpectedToken expected found line column =>
    "Parse error at line " ++ toString line ++ ", column " ++ toString column ++
      ": Expected " ++ expected ++ ", found " ++ found.debug_repr
  | .UnexpectedEOF line column =>
    "Parse error at line " ++ toString line ++ ", column " ++ toString column ++
      ": Unexpected end of file"
  | .InvalidNumber s => "Parse error: Invalid number: " ++ s
  | .InvalidExpression msg line column =>
    "Parse error at line " ++ toString line ++ ", column " ++ toString column ++
      ": Invalid expression - " ++ msg
  | .InvalidStatement msg line column =>
    "Parse error at line " ++ toString line ++ ", column " ++ toString column ++
      ": Invalid statement - " ++ msg
  | .InvalidIdentifier name reason line column =>
    "Parse error at line " ++ toString line ++ ", column " ++ toString column ++
      ": Invalid identifier '" ++ name ++ "' - " ++ reason
  | .fuel_exhausted => "Parse error: fuel exhausted"

/-! ## Precedence (`src/parser.rs`) -/

/-- `Precedence` from `src/parser.rs` (the source constructor `Prefix`
is renamed `PrefixOp` here). -/
inductive Precedence where
  | Lowest | Or | And | Equals | Comparison | Sum | Product
  | PrefixOp | Call | Index
  deriving DecidableEq, Repr

/-- The discriminant values of the `Precedence` enum; the derived
`PartialOrd` compares these. -/
def Precedence.val : Precedence → Nat
  | .Lowest => 0
  | .Or => 1
  | .And => 2
  | .Equals => 3
  | .Comparison => 4
  | .Sum => 5
  | .Product => 6
  | .PrefixOp => 7
  | .Call => 8
  | .Index => 9

/-- `Parser::token_precedence`. -/
def token_precedence : Token → Precedence
  | .Or => .Or
  | .And => .And
  | .Equal => .Equals
  | .NotEqual => .Equals
  | .Less => .Comparison
  | .LessEqual => .Comparison
  | .Greater => .Comparison
  | .GreaterEqual => .Comparison
  | .Plus => .Sum
  | .Minus => .Sum
  | .Multiply => .Product
  | .Divide => .Product
  | .Modulo => .Product
  | .LeftParen => .Call
  | .LeftBracket => .Index
  | _ => .Lowest

/-! ## Parser state (`src/parser.rs`)

The Rust `Parser` holds the lexer plus `current_token`, `peek_token`,
their whitespace flags and `current_line`/`current_column` (the lexer
position recorded right after the last token fetch, i.e. after
fetching `peek_token`).  We replace the live lexer by `toks`, the not
yet consumed entries of `tokenize`; fetching beyond the last entry
reproduces the Rust lexer at EOF (token `EOF`, no whitespace, column
advancing by one per fetch).  The `input_text` field is carried by
`ParsedDocument` instead. -/

structure PState where
  cur : Token
  cur_ws : Bool
  peek : Token
  peek_ws : Bool
  lex_line : Nat
  lex_col : Nat
  toks : List TokEntry
  deriving DecidableEq, Repr

namespace PState

/-- `Parser::next_token`. -/
def advance (st : PState) : PState :=
  match st.toks with
  | e :: rest => ⟨st.peek, st.peek_ws, e.tok, e.ws, e.line, e.column, rest⟩
  | [] => ⟨st.peek, st.peek_ws, Token.EOF, false, st.lex_line, st.lex_col + 1, []⟩

/-- Loop of `Parser::skip_newlines` (fuel derived from the remaining
stream is always sufficient: each iteration consumes one entry and the
exhausted stream yields `EOF`). -/
def skip_newlines_aux : Nat → PState → PState
  | 0, st => st
  | fuel + 1, st =>
    if st.cur = Token.Newline then skip_newlines_aux fuel st.advance else st

/-- `Parser::skip_newlines`. -/
def skip_newlines (st : PState) : PState :=
  skip_newlines_aux (st.toks.length + 4) st

/-- `Parser::new`: fetch the first two tokens. -/
def of_entries (es : List TokEntry) : PState :=
  match es with
  | [] => ⟨Token.EOF, false, Token.EOF, false, 1, 2, []⟩
  | [e1] => ⟨e1.tok, e1.ws, Token.EOF, false, e1.line, e1.column + 1, []⟩
  | e1 :: e2 :: rest => ⟨e1.tok, e1.ws, e2.tok, e2.ws, e2.line, e2.column, rest⟩

end PState

/-- `Parser::new` on raw text. -/
def PState.of_input (input : String) : PState :=
  PState.of_entries (tokenize input)

/-- `Parser::expect_token`. -/
def expect_token (st : PState) (expected : Token) : Except ParseError PState :=
  if st.cur = expected then
    .ok st.advance
  else
    .error (.UnexpectedToken expected.debug_repr st.cur st.lex_line st.lex_col)

/-- `Parser::validate_identifier_internal`.  Positions are the
parser's `current_line`/`current_column` at the call site. -/
def validate_identifier_internal (name : Str) (is_param : Bool)
    (line column : Nat) : Except ParseError Unit :=
  if (match name.data with
      | [] => false
      | c :: _ => char_is_numeric c) then
    .error (.InvalidIdentifier name "标识符不能以数字开头" line column)
  else if is_param then
    if name.data.all (fun c => char_is_alphabetic c || char_is_numeric c || c = '_') then
      .ok ()
    else
      .error (.InvalidIdentifier name "参数名只能包含字母、数字和下划线" line column)
  else
    if name.data.all (fun c => char_is_uppercase c || char_is_numeric c || c = '_') then
      .ok ()
    else
      .error (.InvalidIdentifier name
        "变量名和函数名必须使用全大写字母和下划线（例如：MY_VAR, CALCULATE_SUM）" line column)

/-- `Parser::validate_identifier`. -/
def validate_identifier (st : PState) (name : Str) : Except ParseError Unit :=
  validate_identifier_internal name false st.lex_line st.lex_col

/-- `Parser::current_precedence`. -/
def current_precedence (st : PState) : Precedence :=
  token_precedence st.cur

/-! ## Parser (`src/parser.rs`)

One mutual block, structurally recursive on an explicit fuel argument
that every function decrements on entry; `while` loops of the source
become the `*_loop` members with an accumulator.  `self` threading
becomes explicit `PState` passing in the `Except ParseError` monad
(as in Rust, an error aborts the whole parse). -/

mutual

/-- `Parser::parse_statement`. -/
def parse_statement : Nat → PState → Except ParseError (Stmt × PState)
  | 0, _ => .error .fuel_exhausted
  | fuel + 1, st =>
    match st.cur with
    | .Set => parse_set_statement fuel st
    | .Func => parse_func_definition fuel st
    | .Generator => parse_generator_definition fuel st
    | .Lazy => parse_lazy_definition fuel st
    | .Return => parse_return_statement fuel st
    | .Yield => parse_yield_statement fuel st
    | .Break => parse_break_statement fuel st
    | .Continue => parse_continue_statement fuel st
    | .While => parse_while_statement fuel st
    | .For => parse_for_statement fuel st
    | .Switch => parse_switch_statement fuel st
    | .Import => parse_import_statement fuel st
    | .Export => parse_export_statement fuel st
    | .Throw => parse_throw_statement fuel st
    | _ => parse_expression_statement fuel st

/-- `Parser::parse_set_statement`. -/
def parse_set_statement : Nat → PState → Except ParseError (Stmt × PState)
  | 0, _ => .error .fuel_exhausted
  | fuel + 1, st => do
    let st := st.advance
    match st.cur with
    | .Identifier n =>
      let _ ← validate_identifier st n
      let name := n
      let st := st.advance
      if st.cur = Token.LeftBracket then
        let has_space_before_bracket := st.cur_ws
        if has_space_before_bracket then
          let (value, st) ← parse_expression fuel .Lowest st
          let st := if st.cur = Token.Newline ∨ st.cur = Token.Semicolon then st.advance else st
          pure (Stmt.Set name value, st)
        else
          let st := st.advance
          let (index, st) ← parse_expression fuel .Lowest st
          if st.cur ≠ Token.RightBracket then
            throw (.UnexpectedToken "']' for index access" st.cur st.lex_line st.lex_col)
          else
            let st := st.advance
            let (value, st) ← parse_expression fuel .Lowest st
            let st := if st.cur = Token.Newline ∨ st.cur = Token.Semicolon then st.advance else st
            pure (Stmt.SetIndex (Expr.Identifier name) index value, st)
      else
        let (value, st) ← parse_expression fuel .Lowest st
        let st := if st.cur = Token.Newline ∨ st.cur = Token.Semicolon then st.advance else st
        pure (Stmt.Set name value, st)
    | _ => throw (.UnexpectedToken "identifier" st.cur st.lex_line st.lex_col)

/-- `Parser::parse_func_definition`. -/
def parse_func_definition : Nat → PState → Except ParseError (Stmt × PState)
  | 0, _ => .error .fuel_exhausted
  | fuel + 1, st => do
    let st := st.advance
    match st.cur with
    | .Identifier name =>
      let _ ← validate_identifier st name
      let st := st.advance
      let st ← expect_token st Token.LeftParen
      let (params, st) ← parse_parameter_list fuel st
      let st ← expect_token st Token.RightParen
      let st := st.skip_newlines
      let st ← expect_token st Token.LeftBrace
      let (body, st) ← parse_block fuel st
      let st ← expect_token st Token.RightBrace
      pure (Stmt.FuncDef name params body, st)
    | _ => throw (.UnexpectedToken "identifier" st.cur st.lex_line st.lex_col)

/-- `Parser::parse_generator_definition` (note: no name validation in
the source). -/
def parse_generator_definition : Nat → PState → Except ParseError (Stmt × PState)
  | 0, _ => .error .fuel_exhausted
  | fuel + 1, st => do
    let st := st.advance
    match st.cur with
    | .Identifier name =>
      let st := st.advance
      let st ← expect_token st Token.LeftParen
      let (params, st) ← parse_parameter_list fuel st
      let st ← expect_token st Token.RightParen
      let st := st.skip_newlines
      let st ← expect_token st Token.LeftBrace
      let (body, st) ← parse_block fuel st
      let st ← expect_token st Token.RightBrace
      pure (Stmt.GeneratorDef name params body, st)
    | _ => throw (.UnexpectedToken "identifier" st.cur st.lex_line st.lex_col)

/-- `Parser::parse_lazy_definition` (note: no name validation in the
source). -/
def parse_lazy_definition : Nat → PState → Except ParseError (Stmt × PState)
  | 0, _ => .error .fuel_exhausted
  | fuel + 1, st => do
    let st := st.advance
    match st.cur with
    | .Identifier name =>
      let st := st.advance
      let st ← expect_token st Token.LeftParen
      let (expr, st) ← parse_expression fuel .Lowest st
      let st ← expect_token st Token.RightParen
      let st := if st.cur = Token.Newline ∨ st.cur = Token.Semicolon then st.advance else st
      pure (Stmt.LazyDef name expr, st)
    | _ => throw (.UnexpectedToken "identifier" st.cur st.lex_line st.lex_col)

/-- `Parser::parse_return_statement`. -/
def parse_return_statement : Nat → PState → Except ParseError (Stmt × PState)
  | 0, _ => .error .fuel_exhausted
  | fuel + 1, st => do
    let st := st.advance
    let (expr, st) ←
      if st.cur = Token.Newline ∨ st.cur = Token.RightBrace then
        pure (Expr.Null, st)
      else
        parse_expression fuel .Lowest st
    let st := if st.cur = Token.Newline ∨ st.cur = Token.Semicolon then st.advance else st
    pure (Stmt.Return expr, st)

/-- `Parser::parse_yield_statement`. -/
def parse_yield_statement : Nat → PState → Except ParseError (Stmt × PState)
  | 0, _ => .error .fuel_exhausted
  | fuel + 1, st => do
    let st := st.advance
    let (expr, st) ←
      if st.cur = Token.Newline ∨ st.cur = Token.RightBrace then
        pure (Expr.Null, st)
      else
        parse_expression fuel .Lowest st
    let st := if st.cur = Token.Newline ∨ st.cur = Token.Semicolon then st.advance else st
    pure (Stmt.Yield expr, st)

/-- `Parser::parse_break_statement`. -/
def parse_break_statement : Nat → PState → Except ParseError (Stmt × PState)
  | 0, _ => .error .fuel_exhausted
  | _ + 1, st =>
    let st := st.advance
    let st := if st.cur = Token.Newline ∨ st.cur = Token.Semicolon then st.advance else st
    pure (Stmt.Break, st)

/-- `Parser::parse_continue_statement`. -/
def parse_continue_statement : Nat → PState → Except ParseError (Stmt × PState)
  | 0, _ => .error .fuel_exhausted
  | _ + 1, st =>
    let st := st.advance
    let st := if st.cur = Token.Newline ∨ st.cur = Token.Semicolon then st.advance else st
    pure (Stmt.Continue, st)

/-- `Parser::parse_while_statement`. -/
def parse_while_statement : Nat → PState → Except ParseError (Stmt × PState)
  | 0, _ => .error .fuel_exhausted
  | fuel + 1, st => do
    let st := st.advance
    let st ← expect_token st Token.LeftParen
    let (condition, st) ← parse_expression fuel .Lowest st
    let st ← expect_token st Token.RightParen
    let st := st.skip_newlines
    let st ← expect_token st Token.LeftBrace
    let (body, st) ← parse_block fuel st
    let st ← expect_token st Token.RightBrace
    pure (Stmt.While condition body, st)

/-- `Parser::parse_for_statement`. -/
def parse_for_statement : Nat → PState → Except ParseError (Stmt × PState)
  | 0, _ => .error .fuel_exhausted
  | fuel + 1, st => do
    let st := st.advance
    match st.cur with
    | .Identifier first_var =>
      let st := st.advance
      if st.cur = Token.Comma then
        let st := st.advance
        match st.cur with
        | .Identifier second_var =>
          let st := st.advance
          let st ← expect_token st Token.In
          let (iterable, st) ← parse_expression fuel .Lowest st
          let st := st.skip_newlines
          let st ← expect_token st Token.LeftBrace
          let (body, st) ← parse_block fuel st
          let st ← expect_token st Token.RightBrace
          pure (Stmt.ForIndexed first_var second_var iterable body, st)
        | _ => throw (.UnexpectedToken "identifier" st.cur st.lex_line st.lex_col)
      else
        let st ← expect_token st Token.In
        let (iterable, st) ← parse_expression fuel .Lowest st
        let st := st.skip_newlines
        let st ← expect_token st Token.LeftBrace
        let (body, st) ← parse_block fuel st
        let st ← expect_token st Token.RightBrace
        pure (Stmt.For first_var iterable body, st)
    | _ => throw (.UnexpectedToken "identifier" st.cur st.lex_line st.lex_col)

/-- `Parser::parse_switch_statement`. -/
def parse_switch_statement : Nat → PState → Except ParseError (Stmt × PState)
  | 0, _ => .error .fuel_exhausted
  | fuel + 1, st => do
    let st := st.advance
    let st ← expect_token st Token.LeftParen
    let (expr, st) ← parse_expression fuel .Lowest st
    let st ← expect_token st Token.RightParen
    let st := st.skip_newlines
    let st ← expect_token st Token.LeftBrace
    let st := st.skip_newlines
    let (cases, dflt, st) ← switch_body_loop fuel [] none st
    let st ← expect_token st Token.RightBrace
    pure (Stmt.Switch expr cases dflt, st)

/-- The `while` loop of `parse_switch_statement`; returns on the
closing brace / EOF or after a `Default` block (`break`). -/
def switch_body_loop : Nat → List (Expr × List Stmt) → Option (List Stmt) → PState →
    Except ParseError (List (Expr × List Stmt) × Option (List Stmt) × PState)
  | 0, _, _, _ => .error .fuel_exhausted
  | fuel + 1, cases, dflt, st => do
    if st.cur ≠ Token.RightBrace ∧ st.cur ≠ Token.EOF then
      if st.cur = Token.Case then
        let st := st.advance
        let (case_expr, st) ← parse_expression fuel .Lowest st
        let st ← expect_token st Token.Colon
        let st := st.skip_newlines
        let (case_body, st) ← switch_case_body_loop fuel [] st
        switch_body_loop fuel (cases ++ [(case_expr, case_body)]) dflt st
      else if st.cur = Token.Default then
        let st := st.advance
        let st ← expect_token st Token.Colon
        let st := st.skip_newlines
        let (default_body, st) ← switch_default_body_loop fuel [] st
        pure (cases, some default_body, st)
      else
        switch_body_loop fuel cases dflt st.advance
    else
      pure (cases, dflt, st)

/-- The inner statement loop of a `Case` block. -/
def switch_case_body_loop : Nat → List Stmt → PState →
    Except ParseError (List Stmt × PState)
  | 0, _, _ => .error .fuel_exhausted
  | fuel + 1, acc, st => do
    if st.cur ≠ Token.Case ∧ st.cur ≠ Token.Default ∧
        st.cur ≠ Token.RightBrace ∧ st.cur ≠ Token.EOF then
      let (stmt, st) ← parse_statement fuel st
      let st := st.skip_newlines
      switch_case_body_loop fuel (acc ++ [stmt]) st
    else
      pure (acc, st)

/-- The inner statement loop of the `Default` block. -/
def switch_default_body_loop : Nat → List Stmt → PState →
    Except ParseError (List Stmt × PState)
  | 0, _, _ => .error .fuel_exhausted
  | fuel + 1, acc, st => do
    if st.cur ≠ Token.RightBrace ∧ st.cur ≠ Token.EOF then
      let (stmt, st) ← parse_statement fuel st
      let st := st.skip_newlines
      switch_default_body_loop fuel (acc ++ [stmt]) st
    else
      pure (acc, st)

/-- `Parser::parse_import_statement`. -/
def parse_import_statement : Nat → PState → Except ParseError (Stmt × PState)
  | 0, _ => .error .fuel_exhausted
  | fuel + 1, st => do
    let st := st.advance
    let (names, aliases, st) ←
      if st.cur = Token.LeftBrace then do
        let st := st.advance
        let st := st.skip_newlines
        let (names, aliases, st) ← import_list_loop fuel [] [] st
        let st ← expect_token st Token.RightBrace
        pure (names, aliases, st)
      else
        match st.cur with
        | .Identifier n => do
          let st := st.advance
          let (al, st) ← import_alias fuel st
          pure ([n], [al], st)
        | _ => throw (.UnexpectedToken "identifier" st.cur st.lex_line st.lex_col)
    let st ← expect_token st Token.From
    match st.cur with
    | .String p =>
      let st := st.advance
      let st := if st.cur = Token.Newline ∨ st.cur = Token.Semicolon then st.advance else st
      pure (Stmt.Import names p aliases, st)
    | _ => throw (.UnexpectedToken "string" st.cur st.lex_line st.lex_col)

/-- The `As ALIAS` option after an imported name. -/
def import_alias : Nat → PState → Except ParseError (Option Str × PState)
  | 0, _ => .error .fuel_exhausted
  | _ + 1, st =>
    if st.cur = Token.As then
      let st := st.advance
      match st.cur with
      | .Identifier a => pure (some a, st.advance)
      | _ => pure (none, st)
    else
      pure (none, st)

/-- The braced-list loop of `parse_import_statement`. -/
def import_list_loop : Nat → List Str → List (Option Str) → PState →
    Except ParseError (List Str × List (Option Str) × PState)
  | 0, _, _, _ => .error .fuel_exhausted
  | fuel + 1, names, aliases, st => do
    if st.cur ≠ Token.RightBrace ∧ st.cur ≠ Token.EOF then
      match st.cur with
      | .Identifier n =>
        let st := st.advance
        let (al, st) ← import_alias fuel st
        let names := names ++ [n]
        let aliases := aliases ++ [al]
        if st.cur = Token.Comma then
          let st := st.advance
          let st := st.skip_newlines
          import_list_loop fuel names aliases st
        else
          pure (names, aliases, st)
      | _ => throw (.UnexpectedToken "identifier" st.cur st.lex_line st.lex_col)
    else
      pure (names, aliases, st)

/-- `Parser::parse_export_statement`. -/
def parse_export_statement : Nat → PState → Except ParseError (Stmt × PState)
  | 0, _ => .error .fuel_exhausted
  | _ + 1, st =>
    let st := st.advance
    match st.cur with
    | .Identifier n =>
      let st := st.advance
      let st := if st.cur = Token.Newline ∨ st.cur = Token.Semicolon then st.advance else st
      pure (Stmt.Export n, st)
    | _ => throw (.UnexpectedToken "identifier" st.cur st.lex_line st.lex_col)

/-- `Parser::parse_throw_statement`. -/
def parse_throw_statement : Nat → PState → Except ParseError (Stmt × PState)
  | 0, _ => .error .fuel_exhausted
  | fuel + 1, st => do
    let st := st.advance
    let (expr, st) ← parse_expression fuel .Lowest st
    let st := if st.cur = Token.Newline ∨ st.cur = Token.Semicolon then st.advance else st
    pure (Stmt.Throw expr, st)

/-- `Parser::parse_expression_statement`. -/
def parse_expression_statement : Nat → PState → Except ParseError (Stmt × PState)
  | 0, _ => .error .fuel_exhausted
  | fuel + 1, st => do
    let (expr, st) ← parse_expression fuel .Lowest st
    let st := if st.cur = Token.Newline ∨ st.cur = Token.Semicolon then st.advance else st
    pure (Stmt.Expression expr, st)

/-- `Parser::parse_parameter_list`. -/
def parse_parameter_list : Nat → PState → Except ParseError (List Str × PState)
  | 0, _ => .error .fuel_exhausted
  | fuel + 1, st =>
    if st.cur = Token.RightParen then
      pure ([], st)
    else
      parameter_list_loop fuel [] st

/-- The `loop` of `parse_parameter_list`. -/
def parameter_list_loop : Nat → List Str → PState →
    Except ParseError (List Str × PState)
  | 0, _, _ => .error .fuel_exhausted
  | fuel + 1, params, st => do
    match st.cur with
    | .Identifier name =>
      let _ ← validate_identifier_internal name true st.lex_line st.lex_col
      let params := params ++ [name]
      let st := st.advance
      if st.cur = Token.Comma then
        parameter_list_loop fuel params st.advance
      else
        pure (params, st)
    | _ => pure (params, st)

/-- `Parser::parse_block`. -/
def parse_block : Nat → PState → Except ParseError (List Stmt × PState)
  | 0, _ => .error .fuel_exhausted
  | fuel + 1, st =>
    let st := st.skip_newlines
    parse_block_loop fuel [] st

/-- The `while` loop of `parse_block`. -/
def parse_block_loop : Nat → List Stmt → PState →
    Except ParseError (List Stmt × PState)
  | 0, _, _ => .error .fuel_exhausted
  | fuel + 1, acc, st => do
    if st.cur ≠ Token.RightBrace ∧ st.cur ≠ Token.EOF then
      let (stmt, st) ← parse_statement fuel st
      let st := st.skip_newlines
      parse_block_loop fuel (acc ++ [stmt]) st
    else
      pure (acc, st)

/-- `Parser::parse_program`. -/
def parse_program : Nat → PState → Except ParseError (Program × PState)
  | 0, _ => .error .fuel_exhausted
  | fuel + 1, st =>
    let st := st.skip_newlines
    parse_program_loop fuel [] st

/-- The `while` loop of `parse_program`. -/
def parse_program_loop : Nat → List Stmt → PState →
    Except ParseError (Program × PState)
  | 0, _, _ => .error .fuel_exhausted
  | fuel + 1, acc, st => do
    if st.cur ≠ Token.EOF then
      let (stmt, st) ← parse_statement fuel st
      let st := st.skip_newlines
      parse_program_loop fuel (acc ++ [stmt]) st
    else
      pure (acc, st)

/-- `Parser::parse_expression`. -/
def parse_expression : Nat → Precedence → PState →
    Except ParseError (Expr × PState)
  | 0, _, _ => .error .fuel_exhausted
  | fuel + 1, precedence, st => do
    let (left, st) ← parse_prefix_expr fuel st
    parse_expression_loop fuel precedence left st

/-- The infix `while` loop of `parse_expression`. -/
def parse_expression_loop : Nat → Precedence → Expr → PState →
    Except ParseError (Expr × PState)
  | 0, _, _, _ => .error .fuel_exhausted
  | fuel + 1, precedence, left, st => do
    if precedence.val < (current_precedence st).val ∧
        st.cur ≠ Token.Newline ∧ st.cur ≠ Token.Semicolon ∧
        st.cur ≠ Token.EOF ∧ st.cur ≠ Token.RightParen ∧
        st.cur ≠ Token.RightBracket ∧ st.cur ≠ Token.RightBrace ∧
        st.cur ≠ Token.Comma ∧ st.cur ≠ Token.Colon then
      let (left, st) ← parse_infix_expr fuel left st
      parse_expression_loop fuel precedence left st
    else
      pure (left, st)

/-- `Parser::parse_prefix` (renamed: `parse_prefix_expr`). -/
def parse_prefix_expr : Nat → PState → Except ParseError (Expr × PState)
  | 0, _ => .error .fuel_exhausted
  | fuel + 1, st =>
    match st.cur with
    | .Number n => pure (Expr.Number n, st.advance)
    | .BigInteger s => pure (Expr.BigInteger s, st.advance)
    | .String s => pure (Expr.String s, st.advance)
    | .Boolean b => pure (Expr.Boolean b, st.advance)
    | .Null => pure (Expr.Null, st.advance)
    | .Identifier name => pure (Expr.Identifier name, st.advance)
    | .LeftParen => parse_grouped_expression fuel st
    | .LeftBracket => parse_array_literal fuel st
    | .LeftBrace => parse_dict_literal fuel st
    | .Minus => parse_unary_expression fuel UnaryOp.Minus st
    | .Not => parse_unary_expression fuel UnaryOp.Not st
    | .If => parse_if_expression fuel st
    | .Func => parse_lambda_expression fuel st
    | .Lambda => parse_lambda_arrow_expression fuel st
    | _ => throw (.InvalidExpression "Unexpected token in expression" st.lex_line st.lex_col)

/-- `Parser::parse_infix` (renamed: `parse_infix_expr`). -/
def parse_infix_expr : Nat → Expr → PState → Except ParseError (Expr × PState)
  | 0, _, _ => .error .fuel_exhausted
  | fuel + 1, left, st =>
    match st.cur with
    | .Plus | .Minus | .Multiply | .Divide | .Modulo
    | .Equal | .NotEqual | .Less | .LessEqual | .Greater | .GreaterEqual
    | .And | .Or => parse_binary_expression fuel left st
    | .LeftParen => parse_call_expression fuel left st
    | .LeftBracket => parse_index_expression fuel left st
    | _ => pure (left, st)

/-- `Parser::parse_grouped_expression`. -/
def parse_grouped_expression : Nat → PState → Except ParseError (Expr × PState)
  | 0, _ => .error .fuel_exhausted
  | fuel + 1, st => do
    let st := st.advance
    let (expr, st) ← parse_expression fuel .Lowest st
    if st.cur = Token.RightParen then
      pure (expr, st.advance)
    else
      throw (.UnexpectedToken "RightParen" st.cur st.lex_line st.lex_col)

/-- `Parser::parse_array_literal`. -/
def parse_array_literal : Nat → PState → Except ParseError (Expr × PState)
  | 0, _ => .error .fuel_exhausted
  | fuel + 1, st => do
    let st := st.advance
    let st := st.skip_newlines
    let (elements, st) ← array_literal_loop fuel [] st
    let st ← expect_token st Token.RightBracket
    pure (Expr.Array elements, st)

/-- The element loop of `parse_array_literal`. -/
def array_literal_loop : Nat → List Expr → PState →
    Except ParseError (List Expr × PState)
  | 0, _, _ => .error .fuel_exhausted
  | fuel + 1, acc, st => do
    if st.cur ≠ Token.RightBracket ∧ st.cur ≠ Token.EOF then
      let (e, st) ← parse_expression fuel .Lowest st
      let st := st.skip_newlines
      if st.cur = Token.Comma then
        let st := st.advance
        let st := st.skip_newlines
        array_literal_loop fuel (acc ++ [e]) st
      else
        array_literal_loop fuel (acc ++ [e]) st
    else
      pure (acc, st)

/-- `Parser::parse_dict_literal`. -/
def parse_dict_literal : Nat → PState → Except ParseError (Expr × PState)
  | 0, _ => .error .fuel_exhausted
  | fuel + 1, st => do
    let st := st.advance
    let st := st.skip_newlines
    let (pairs, st) ← dict_literal_loop fuel [] st
    let st ← expect_token st Token.RightBrace
    pure (Expr.Dict pairs, st)

/-- The pair loop of `parse_dict_literal`. -/
def dict_literal_loop : Nat → List (Str × Expr) → PState →
    Except ParseError (List (Str × Expr) × PState)
  | 0, _, _ => .error .fuel_exhausted
  | fuel + 1, acc, st => do
    if st.cur ≠ Token.RightBrace ∧ st.cur ≠ Token.EOF then
      let key ←
        match st.cur with
        | .Identifier k => pure k
        | .String k => pure k
        | _ => throw (ParseError.UnexpectedToken "identifier or string" st.cur st.lex_line st.lex_col)
      let st := st.advance
      let st ← expect_token st Token.Colon
      let (value, st) ← parse_expression fuel .Lowest st
      let acc := acc ++ [(key, value)]
      let st := st.skip_newlines
      if st.cur = Token.Comma then
        let st := st.advance
        let st := st.skip_newlines
        dict_literal_loop fuel acc st
      else
        dict_literal_loop fuel acc st
    else
      pure (acc, st)

/-- `Parser::parse_unary_expression`. -/
def parse_unary_expression : Nat → UnaryOp → PState →
    Except ParseError (Expr × PState)
  | 0, _, _ => .error .fuel_exhausted
  | fuel + 1, op, st => do
    let st := st.advance
    let (expr, st) ← parse_expression fuel .PrefixOp st
    pure (Expr.unary op expr, st)

/-- `Parser::parse_binary_expression`. -/
def parse_binary_expression : Nat → Expr → PState →
    Except ParseError (Expr × PState)
  | 0, _, _ => .error .fuel_exhausted
  | fuel + 1, left, st => do
    let op ←
      match st.cur with
      | .Plus => pure BinOp.Add
      | .Minus => pure BinOp.Subtract
      | .Multiply => pure BinOp.Multiply
      | .Divide => pure BinOp.Divide
      | .Modulo => pure BinOp.Modulo
      | .Equal => pure BinOp.Equal
      | .NotEqual => pure BinOp.NotEqual
      | .Less => pure BinOp.Less
      | .LessEqual => pure BinOp.LessEqual
      | .Greater => pure BinOp.Greater
      | .GreaterEqual => pure BinOp.GreaterEqual
      | .And => pure BinOp.And
      | .Or => pure BinOp.Or
      | _ => throw (ParseError.InvalidExpression "Invalid binary operator" st.lex_line st.lex_col)
    let precedence := current_precedence st
    let st := st.advance
    let (right, st) ← parse_expression fuel precedence st
    pure (Expr.binary left op right, st)

/-- `Parser::parse_call_expression`. -/
def parse_call_expression : Nat → Expr → PState →
    Except ParseError (Expr × PState)
  | 0, _, _ => .error .fuel_exhausted
  | fuel + 1, func, st => do
    let st := st.advance
    let st := st.skip_newlines
    let (args, st) ← call_argument_loop fuel [] st
    let st ← expect_token st Token.RightParen
    pure (Expr.call func args, st)

/-- The argument loop of `parse_call_expression`. -/
def call_argument_loop : Nat → List Expr → PState →
    Except ParseError (List Expr × PState)
  | 0, _, _ => .error .fuel_exhausted
  | fuel + 1, acc, st => do
    if st.cur ≠ Token.RightParen ∧ st.cur ≠ Token.EOF then
      let (arg, st) ← parse_expression fuel .Lowest st
      if st.cur = Token.Comma then
        let st := st.advance
        let st := st.skip_newlines
        call_argument_loop fuel (acc ++ [arg]) st
      else
        pure (acc ++ [arg], st)
    else
      pure (acc, st)

/-- `Parser::parse_index_expression`. -/
def parse_index_expression : Nat → Expr → PState →
    Except ParseError (Expr × PState)
  | 0, _, _ => .error .fuel_exhausted
  | fuel + 1, object, st => do
    let st := st.advance
    let (index, st) ← parse_expression fuel .Lowest st
    let st ← expect_token st Token.RightBracket
    pure (Expr.index object index, st)

/-- `Parser::parse_if_expression`. -/
def parse_if_expression : Nat → PState → Except ParseError (Expr × PState)
  | 0, _ => .error .fuel_exhausted
  | fuel + 1, st => do
    let st := st.advance
    let st ← expect_token st Token.LeftParen
    let (condition, st) ← parse_expression fuel .Lowest st
    let st ← expect_token st Token.RightParen
    let st := st.skip_newlines
    let st ← expect_token st Token.LeftBrace
    let (then_branch, st) ← parse_block fuel st
    let st ← expect_token st Token.RightBrace
    let st := st.skip_newlines
    let (elif_branches, st) ← elif_loop fuel [] st
    let (else_branch, st) ←
      if st.cur = Token.Else then do
        let st := st.advance
        let st := st.skip_newlines
        let st ← expect_token st Token.LeftBrace
        let (else_body, st) ← parse_block fuel st
        let st ← expect_token st Token.RightBrace
        pure (some else_body, st)
      else
        pure (none, st)
    pure (Expr.If condition then_branch elif_branches else_branch, st)

/-- The `Elif` chain loop of `parse_if_expression`. -/
def elif_loop : Nat → List (Expr × List Stmt) → PState →
    Except ParseError (List (Expr × List Stmt) × PState)
  | 0, _, _ => .error .fuel_exhausted
  | fuel + 1, acc, st => do
    if st.cur = Token.Elif then
      let st := st.advance
      let st ← expect_token st Token.LeftParen
      let (elif_cond, st) ← parse_expression fuel .Lowest st
      let st ← expect_token st Token.RightParen
      let st := st.skip_newlines
      let st ← expect_token st Token.LeftBrace
      let (elif_body, st) ← parse_block fuel st
      let st ← expect_token st Token.RightBrace
      let st := st.skip_newlines
      elif_loop fuel (acc ++ [(elif_cond, elif_body)]) st
    else
      pure (acc, st)

/-- `Parser::parse_lambda_expression` (`Func(params) { body }` form). -/
def parse_lambda_expression : Nat → PState → Except ParseError (Expr × PState)
  | 0, _ => .error .fuel_exhausted
  | fuel + 1, st => do
    let st := st.advance
    let st ← expect_token st Token.LeftParen
    let (params, st) ← parse_parameter_list fuel st
    let st ← expect_token st Token.RightParen
    let st := st.skip_newlines
    let st ← expect_token st Token.LeftBrace
    let (body, st) ← parse_block fuel st
    let st ← expect_token st Token.RightBrace
    pure (Expr.Lambda params body, st)

/-- `Parser::parse_lambda_arrow_expression`. -/
def parse_lambda_arrow_expression : Nat → PState → Except ParseError (Expr × PState)
  | 0, _ => .error .fuel_exhausted
  | fuel + 1, st => do
    let st := st.advance
    let (params, st) ←
      if st.cur = Token.LeftParen then do
        let st := st.advance
        let (params, st) ← parse_parameter_list fuel st
        let st ← expect_token st Token.RightParen
        pure (params, st)
      else
        match st.cur with
        | .Identifier name => do
          let _ ← validate_identifier_internal name true st.lex_line st.lex_col
          pure ([name], st.advance)
        | _ => throw (ParseError.UnexpectedToken "identifier or '('" st.cur st.lex_line st.lex_col)
    let st ← expect_token st Token.Arrow
    let (expr, st) ← parse_expression fuel .Lowest st
    pure (Expr.Lambda params [Stmt.Return expr], st)

end

/-- Fuel that is ample for any recursion the parser can perform on the
token stream of `input` (the claims never depend on its exact value:
shape theorems hold for every fuel and concrete runs are evaluated). -/
def parser_fuel (input : String) : Nat :=
  4 * input.length + 64

/-- `Parser::parse_program` run on raw input text, projected to the
returned `Program`. -/
def parse_program_of_input (input : String) : Except ParseError Program :=
  (parse_program (parser_fuel input) (PState.of_input input)).map Prod.fst

/-! ## Symbol table (`src/symbols.rs`)

`SymbolInfo.documentation` (backfilled for variables by scanning the
raw text for preceding comment lines) is not modelled: no verified
property depends on it.  LSP `Position`/`Range` are plain number
pairs here. -/

structure Position where
  line : Nat
  character : Nat
  deriving DecidableEq, Repr

structure Range where
  start : Position
  stop : Position
  deriving DecidableEq, Repr

inductive SymbolKind where
  | VARIABLE | FUNCTION
  deriving DecidableEq, Repr

structure SymbolInfo where
  name : Str
  kind : SymbolKind
  range : Range
  selection_range : Range
  detail : Option Str
  deriving DecidableEq, Repr

/-- `SymbolTable` from `src/symbols.rs` (the source field `variables`
is renamed `vars`: `variables` is reserved in Lean). -/
structure SymbolTable where
  vars : List SymbolInfo
  functions : List SymbolInfo
  deriving DecidableEq, Repr

/-- `SymbolTable::new`. -/
def SymbolTable.new : SymbolTable :=
  ⟨[], []⟩

/-- `SymbolTable::add_variable`. -/
def SymbolTable.add_variable (t : SymbolTable) (name : Str) (range : Range)
    (detail : Option Str) : SymbolTable :=
  { t with vars := t.vars ++ [⟨name, .VARIABLE, range, range, detail⟩] }

/-- `SymbolTable::add_function`. -/
def SymbolTable.add_function (t : SymbolTable) (name : Str) (range : Range)
    (_params : List Str) (detail : Option Str) : SymbolTable :=
  { t with functions := t.functions ++ [⟨name, .FUNCTION, range, range, detail⟩] }

mutual

/-- `extract_symbols_from_stmt` from `src/symbols.rs` (placeholder
line-0 ranges exactly as the source; the `text` parameter only feeds
the unmodelled documentation backfill). -/
def extract_symbols_from_stmt (stmt : Stmt) (table : SymbolTable) (text : Str) :
    SymbolTable :=
  match stmt with
  | .Set name _ =>
    let range : Range := ⟨⟨0, 0⟩, ⟨0, name.length⟩⟩
    { table with vars :=
        table.vars ++ [⟨name, .VARIABLE, range, range, some ("Variable: " ++ name)⟩] }
  | .FuncDef name params body =>
    let range : Range := ⟨⟨0, 0⟩, ⟨body.length, 0⟩⟩
    let table := table.add_function name range params
      (some ("Function: " ++ name ++ "(" ++ String.intercalate ", " params ++ ") \x7b ... \x7d"))
    extract_symbols_from_stmt_list body table text
  | .GeneratorDef name params body =>
    let range : Range := ⟨⟨0, 0⟩, ⟨body.length, 0⟩⟩
    let table := table.add_function name range params
      (some ("Generator: " ++ name ++ "(" ++ String.intercalate ", " params ++ ") \x7b ... \x7d"))
    extract_symbols_from_stmt_list body table text
  | .LazyDef name _ =>
    let range : Range := ⟨⟨0, 0⟩, ⟨0, name.length⟩⟩
    table.add_variable name range (some ("Lazy: " ++ name))
  | .While _ body => extract_symbols_from_stmt_list body table text
  | .For _ _ body => extract_symbols_from_stmt_list body table text
  | .ForIndexed _ _ _ body => extract_symbols_from_stmt_list body table text
  | .Switch _ cases dflt =>
    let table := extract_symbols_from_case_list cases table text
    match dflt with
    | some default_body => extract_symbols_from_stmt_list default_body table text
    | none => table
  | .Expression expr => extract_symbols_from_expr expr table text
  | _ => table

/-- Sequential walk over a statement list. -/
def extract_symbols_from_stmt_list (stmts : List Stmt) (table : SymbolTable)
    (text : Str) : SymbolTable :=
  match stmts with
  | [] => table
  | s :: rest =>
    extract_symbols_from_stmt_list rest (extract_symbols_from_stmt s table text) text

/-- Walk over the bodies of `(expr, body)` pairs (switch cases,
elif branches); the expressions themselves are not walked, as in the
source. -/
def extract_symbols_from_case_list (cases : List (Expr × List Stmt))
    (table : SymbolTable) (text : Str) : SymbolTable :=
  match cases with
  | [] => table
  | (_, body) :: rest =>
    extract_symbols_from_case_list rest (extract_symbols_from_stmt_list body table text) text

/-- `extract_symbols_from_expr` from `src/symbols.rs`. -/
def extract_symbols_from_expr (expr : Expr) (table : SymbolTable) (text : Str) :
    SymbolTable :=
  match expr with
  | .Lambda _ body => extract_symbols_from_stmt_list body table text
  | .If _ then_branch elif_branches else_branch =>
    let table := extract_symbols_from_stmt_list then_branch table text
    let table := extract_symbols_from_case_list elif_branches table text
    match else_branch with
    | some else_body => extract_symbols_from_stmt_list else_body table text
    | none => table
  | _ => table

end

/-- `SymbolTable::from_ast`. -/
def SymbolTable.from_ast (ast : Program) (text : Str) : SymbolTable :=
  extract_symbols_from_stmt_list ast SymbolTable.new text

/-! ## `ParsedDocument` and `Parser::parse` (`src/parser.rs`) -/

/-- `CompatParseError` from `src/parser.rs`.  Its `line`/`column`
fields (the parser's resting position after the failed parse, used
only for diagnostic ranges) are not modelled: the error's own
positions are embedded in `message`, and no verified property depends
on the resting position. -/
structure CompatParseError where
  message : Str
  deriving DecidableEq, Repr

/-- `ParsedDocument` from `src/parser.rs`. -/
structure ParsedDocument where
  text : Str
  ast : Program
  symbols : SymbolTable
  errors : List CompatParseError

/-- `Parser::parse`: the compatibility wrapper around
`parse_program`. -/
def Parser.parse (input : String) : ParsedDocument :=
  match parse_program (parser_fuel input) (PState.of_input input) with
  | .ok (ast, _) =>
    ⟨input, ast, SymbolTable.from_ast ast input, []⟩
  | .error e =>
    ⟨input, [], SymbolTable.new, [⟨e.message⟩]⟩

/-! ## Diagnostics (`src/diagnostics.rs`)

LSP `Diagnostic` is reduced to the fields the verified properties
exercise: severity, code, source tag and message.  The `range`
(derived from the 1-based error positions by saturating subtraction,
via `estimate_error_length` for the end column) and the constant
`code_description`/`tags`/`related_information`/`data` fields are
dropped. -/

inductive DiagnosticSeverity where
  | ERROR | WARNING
  deriving DecidableEq, Repr

structure Diagnostic where
  severity : DiagnosticSeverity
  code : Str
  source : Str
  message : Str
  deriving DecidableEq, Repr

/-- Rust `str::contains` (substring test). -/
def str_contains_aux (pattern : List Char) : List Char → Bool
  | [] => pattern.isEmpty
  | c :: rest => List.isPrefixOf pattern (c :: rest) || str_contains_aux pattern rest

/-- Rust `str::contains` on strings. -/
def str_contains (s pattern : Str) : Bool :=
  str_contains_aux pattern.data s.data

/-- `DiagnosticEngine::error_code_from_message`. -/
def error_code_from_message (message : Str) : Str :=
  if str_contains message "UPPER_SNAKE_CASE" then "E001"
  else if str_contains message "Unexpected token" then "E002"
  else if str_contains message "Expected" then "E003"
  else if str_contains message "Invalid expression" then "E004"
  else "E000"

/-- `DiagnosticEngine::parse_errors_to_diagnostics`. -/
def parse_errors_to_diagnostics (errors : List CompatParseError) : List Diagnostic :=
  errors.map (fun e =>
    ⟨.ERROR, error_code_from_message e.message, "aether-parser", e.message⟩)

/-- `DiagnosticEngine::is_valid_aether_name`. -/
def is_valid_aether_name (name : Str) : Bool :=
  !name.isEmpty &&
    name.data.all (fun c => char_is_ascii_uppercase c || c = '_' || char_is_ascii_digit c) &&
    !(char_is_ascii_digit (name.data.headD '\x00'))

/-- `DiagnosticEngine::suggest_upper_snake_case`. -/
def suggest_upper_snake_case (name : Str) : Str :=
  to_uppercase name

/-- The scan loop of `DiagnosticEngine::check_naming_convention`
(the captured `line`/`column` feed only the dropped range). -/
def check_naming_convention_aux : Nat → Token → Lexer → List Diagnostic
  | 0, _, _ => []
  | fuel + 1, prev_token, l =>
    let (token, _, l') := l.next_token
    if token = Token.EOF then
      []
    else
      let here :=
        match token with
        | Token.Identifier name =>
          let is_definition :=
            prev_token = Token.Set ∨ prev_token = Token.Func ∨
              prev_token = Token.Generator ∨ prev_token = Token.Lazy
          if is_definition ∧ ¬ is_valid_aether_name name then
            [⟨DiagnosticSeverity.WARNING, "W001", "aether-lint",
              "变量名 '" ++ name ++ "' 应使用 UPPER_SNAKE_CASE 格式\n建议: " ++
                suggest_upper_snake_case name⟩]
          else
            []
        | _ => []
      here ++ check_naming_convention_aux fuel token l'

/-- `DiagnosticEngine::check_naming_convention` (the independent
second tokenization of the raw text). -/
def check_naming_convention (text : Str) : List Diagnostic :=
  check_naming_convention_aux (text.length + 2) Token.EOF (Lexer.new text)

/-- `DiagnosticEngine::analyze`. -/
def analyze (parsed : ParsedDocument) (text : Str) : List Diagnostic :=
  parse_errors_to_diagnostics parsed.errors ++
    (if parsed.errors.isEmpty then check_naming_convention text else [])

/-! ## Helper lemmas -/

/-- After `next_token`, the current token is the previous peek token. -/
theorem PState.advance_cur (st : PState) : st.advance.cur = st.peek := by
  unfold PState.advance
  cases st.toks <;> rfl

/-- After `next_token`, the current whitespace flag is the previous
peek flag. -/
theorem PState.advance_cur_ws (st : PState) : st.advance.cur_ws = st.peek_ws := by
  unfold PState.advance
  cases st.toks <;> rfl

/-! ## Claims -/

/-- C4: `Set x 1` (lowercase declaration target) fails to parse with an
invalid-identifier error, `Set X 1` parses, and
`Lambda x -> (x + 1)` parses despite the lowercase binder, because
lambda binders use the relaxed parameter rule. -/
theorem C4_identifier_case_rules :
    parse_program_of_input "Set x 1" =
      .error (.InvalidIdentifier "x"
        "变量名和函数名必须使用全大写字母和下划线（例如：MY_VAR, CALCULATE_SUM）" 1 8) ∧
    parse_program_of_input "Set X 1" = .ok [Stmt.Set "X" (Expr.Number "1")] ∧
    parse_program_of_input "Lambda x -> (x + 1)" =
      .ok [Stmt.Expression (Expr.Lambda ["x"]
        [Stmt.Return (Expr.Binary (Expr.Identifier "x") BinOp.Add (Expr.Number "1"))])] :=
  ⟨rfl, rfl, rfl⟩

/-- C8: `5 + 3 * 2` parses to
`Add(Number(5), Multiply(Number(3), Number(2)))`: multiplication binds
tighter than addition in the precedence table. -/
theorem C8_multiplication_binds_tighter :
    parse_program_of_input "5 + 3 * 2" =
      .ok [Stmt.Expression (Expr.Binary (Expr.Number "5") BinOp.Add
        (Expr.Binary (Expr.Number "3") BinOp.Multiply (Expr.Number "2")))] ∧
    token_precedence Token.Plus = Precedence.Sum ∧
    token_precedence Token.Multiply = Precedence.Product ∧
    Precedence.Sum.val < Precedence.Product.val :=
  ⟨rfl, rfl, rfl, by decide⟩

/-- C3 counterexample: the claim says a `Generator`/`Lazy` definition
with a name violating the strict rule aborts the parse with an
invalid-identifier error, but the code never validates those names:
`Generator foo() { }` and `Lazy bar (1)` parse successfully even
though `foo` and `bar` fail the strict declaration-identifier check. -/
theorem C3_counterexample_generator_lazy_names_unchecked :
    parse_program_of_input "Generator foo() \x7b \x7d" =
      .ok [Stmt.GeneratorDef "foo" [] []] ∧
    parse_program_of_input "Lazy bar (1)" = .ok [Stmt.LazyDef "bar" (Expr.Number "1")] ∧
    validate_identifier_internal "foo" false 1 1 =
      .error (.InvalidIdentifier "foo"
        "变量名和函数名必须使用全大写字母和下划线（例如：MY_VAR, CALCULATE_SUM）" 1 1) ∧
    validate_identifier_internal "bar" false 1 1 =
      .error (.InvalidIdentifier "bar"
        "变量名和函数名必须使用全大写字母和下划线（例如：MY_VAR, CALCULATE_SUM）" 1 1) :=
  ⟨rfl, rfl, rfl, rfl⟩

/-- C3 (amended): `parse_generator_definition` and
`parse_lazy_definition` accept any identifier token as the defined
name without validating it — for every name `n`, a generator
definition `Generator n() { }` and a lazy definition `Lazy n (1)`
parse successfully. -/
theorem C3_amended_generator_lazy_any_name (h : Nat) (n : Str) :
    (parse_generator_definition (h + 4)
      ⟨Token.Generator, false, Token.Identifier n, false, 1, 1,
        [⟨Token.LeftParen, false, 1, 2⟩, ⟨Token.RightParen, false, 1, 3⟩,
         ⟨Token.LeftBrace, true, 1, 5⟩, ⟨Token.RightBrace, true, 1, 7⟩,
         ⟨Token.EOF, false, 1, 8⟩]⟩).map Prod.fst =
      .ok (Stmt.GeneratorDef n [] []) ∧
    (parse_lazy_definition (h + 4)
      ⟨Token.Lazy, false, Token.Identifier n, false, 1, 1,
        [⟨Token.LeftParen, true, 1, 3⟩, ⟨Token.Number "1", false, 1, 4⟩,
         ⟨Token.RightParen, false, 1, 5⟩, ⟨Token.EOF, false, 1, 6⟩]⟩).map Prod.fst =
      .ok (Stmt.LazyDef n (Expr.Number "1")) :=
  ⟨rfl, rfl⟩

/-- C6: the code double-counts newlines inside block comments.
Scanning `"/*\n*/X"` (one newline, `X` on line 2) reports the token
`X` at line 3: `read_char` increments the line counter when it loads
the newline, and `skip_block_comment` increments it once more for the
same character.  A linear re-derivation of positions from the raw text
puts `X` on line 2, so the positions do not match. -/
theorem C6_block_comment_newline_double_counted :
    tokenize "/*\n*/X" =
      [⟨Token.Identifier "X", false, 3, 4⟩, ⟨Token.EOF, false, 3, 5⟩] ∧
    "/*\n*/X".data.count '\n' = 1 ∧
    (Lexer.new "/*\n*/X").line = 1 :=
  ⟨rfl, by decide, rfl⟩

/-- C7: `"""line one\nline two"""` lexes to a single `String` token
whose value contains the embedded newline — but the scanner's line
counter afterwards is 3, not the starting line plus one (2): the
newline is counted once by `read_char` and once more by
`read_multiline_string`'s manual bump. -/
theorem C7_multiline_string_token_and_line :
    tokenize "\"\"\"line one\nline two\"\"\"" =
      [⟨Token.String "line one\nline two", false, 3, 12⟩, ⟨Token.EOF, false, 3, 13⟩] ∧
    "line one\nline two".data.count '\n' = 1 ∧
    (Lexer.new "\"\"\"line one\nline two\"\"\"").line = 1 :=
  ⟨rfl, by decide, rfl⟩

/-- C10: a `Return` (resp. `Yield`) whose keyword is immediately
followed by a newline token or a closing brace parses to
`Return(Null)` (resp. `Yield(Null)`). -/
theorem C10_bare_return_yield_default_to_null :
    (∀ (f : Nat) (st : PState), st.peek = Token.Newline →
        parse_return_statement (f + 1) st = .ok (Stmt.Return Expr.Null, st.advance.advance)) ∧
    (∀ (f : Nat) (st : PState), st.peek = Token.RightBrace →
        parse_return_statement (f + 1) st = .ok (Stmt.Return Expr.Null, st.advance)) ∧
    (∀ (f : Nat) (st : PState), st.peek = Token.Newline →
        parse_yield_statement (f + 1) st = .ok (Stmt.Yield Expr.Null, st.advance.advance)) ∧
    (∀ (f : Nat) (st : PState), st.peek = Token.RightBrace →
        parse_yield_statement (f + 1) st = .ok (Stmt.Yield Expr.Null, st.advance)) := by
  refine ⟨?_, ?_, ?_, ?_⟩ <;> intro f st h <;>
    have h1 : st.advance.cur = st.peek := PState.advance_cur st <;>
    rw [h] at h1 <;>
    simp [parse_return_statement, parse_yield_statement, h1, pure, Except.pure,
      bind, Except.bind]

/-- C10 witness: concrete instantiations of the four cases. -/
theorem C10_witness :
    parse_return_statement 9
      ⟨Token.Return, false, Token.Newline, false, 1, 7, [⟨Token.EOF, false, 1, 8⟩]⟩ =
      .ok (Stmt.Return Expr.Null,
        ((⟨Token.Return, false, Token.Newline, false, 1, 7,
            [⟨Token.EOF, false, 1, 8⟩]⟩ : PState).advance).advance) ∧
    parse_yield_statement 9
      ⟨Token.Yield, false, Token.RightBrace, true, 1, 9, [⟨Token.EOF, false, 1, 10⟩]⟩ =
      .ok (Stmt.Yield Expr.Null,
        (⟨Token.Yield, false, Token.RightBrace, true, 1, 9,
            [⟨Token.EOF, false, 1, 10⟩]⟩ : PState).advance) :=
  ⟨C10_bare_return_yield_default_to_null.1 8 _ rfl,
   C10_bare_return_yield_default_to_null.2.2.2 8 _ rfl⟩

/-- C1: `Parser::parse` returns exactly one of two shapes — success
with zero errors and the complete program from `parse_program`, or
failure with exactly one error, an empty AST and an empty symbol
table; a non-empty errors list and a non-empty AST never coexist.  A
document with two invalid statements yields exactly the one error for
the first of them (the reported identifier is `x`, not `y`). -/
theorem C1_parse_fail_fast_shape :
    (∀ input : String,
      ((Parser.parse input).errors = [] ∧
        ∃ stf, parse_program (parser_fuel input) (PState.of_input input) =
          .ok ((Parser.parse input).ast, stf)) ∨
      ((Parser.parse input).errors.length = 1 ∧ (Parser.parse input).ast = [] ∧
        (Parser.parse input).symbols = SymbolTable.new)) ∧
    (∀ input : String, (Parser.parse input).errors ≠ [] → (Parser.parse input).ast = []) ∧
    (Parser.parse "Set x 1\nSet y 2").errors =
      [⟨"Parse error at line 2, column 0: Invalid identifier 'x' - 变量名和函数名必须使用全大写字母和下划线（例如：MY_VAR, CALCULATE_SUM）"⟩] ∧
    (Parser.parse "Set x 1\nSet y 2").ast = [] ∧
    (Parser.parse "Set x 1\nSet y 2").symbols = SymbolTable.new := by
  refine ⟨?_, ?_, rfl, rfl, rfl⟩
  · intro input
    cases hp : parse_program (parser_fuel input) (PState.of_input input) with
    | ok v =>
      left
      refine ⟨by simp [Parser.parse, hp], v.2, ?_⟩
      simp [Parser.parse, hp]
    | error e =>
      right
      simp [Parser.parse, hp]
  · intro input hne
    cases hp : parse_program (parser_fuel input) (PState.of_input input) with
    | ok v => simp [Parser.parse, hp] at hne
    | error e => simp [Parser.parse, hp]

/-- C1 witness: the fail-fast consequence applied to the two-error
document. -/
theorem C1_witness :
    (Parser.parse "Set x 1\nSet y 2").ast = [] :=
  C1_parse_fail_fast_shape.2.1 "Set x 1\nSet y 2" (by decide)

/-- C9: parser diagnostics always carry Error severity and the
`aether-parser` source; the naming lint runs exactly when the parse
produced zero errors, re-tokenizes the text, and emits one Warning
(with the uppercased suggestion in the message) per identifier that
follows a `Set`/`Func`/`Generator`/`Lazy` keyword and fails the strict
UPPER_SNAKE_CASE predicate. -/
theorem C9_lint_gating_and_warnings :
    (∀ (parsed : ParsedDocument) (text : Str), parsed.errors ≠ [] →
        analyze parsed text = parse_errors_to_diagnostics parsed.errors) ∧
    (∀ (parsed : ParsedDocument), ∀ d ∈ parse_errors_to_diagnostics parsed.errors,
        d.severity = DiagnosticSeverity.ERROR ∧ d.source = "aether-parser") ∧
    (∀ (parsed : ParsedDocument) (text : Str), parsed.errors = [] →
        analyze parsed text = check_naming_convention text) ∧
    check_naming_convention "Generator foo() \x7b \x7d" =
      [⟨DiagnosticSeverity.WARNING, "W001", "aether-lint",
        "变量名 'foo' 应使用 UPPER_SNAKE_CASE 格式\n建议: FOO"⟩] ∧
    analyze (Parser.parse "Generator foo() \x7b \x7d\nLazy bar (1)")
        "Generator foo() \x7b \x7d\nLazy bar (1)" =
      [⟨DiagnosticSeverity.WARNING, "W001", "aether-lint",
        "变量名 'foo' 应使用 UPPER_SNAKE_CASE 格式\n建议: FOO"⟩,
       ⟨DiagnosticSeverity.WARNING, "W001", "aether-lint",
        "变量名 'bar' 应使用 UPPER_SNAKE_CASE 格式\n建议: BAR"⟩] ∧
    analyze (Parser.parse "Set X 1") "Set X 1" = [] := by
  refine ⟨?_, ?_, ?_, rfl, rfl, rfl⟩
  · intro p t h
    simp [analyze, List.isEmpty_eq_true, h]
  · intro p d hd
    simp [parse_errors_to_diagnostics] at hd
    obtain ⟨e, _, rfl⟩ := hd
    exact ⟨rfl, rfl⟩
  · intro p t h
    simp [analyze, h, parse_errors_to_diagnostics]

/-- C9 witness: the gating and severity facts applied to concrete
documents (`Set x 1` fails to parse, `Set X 1` parses cleanly). -/
theorem C9_witness :
    analyze (Parser.parse "Set x 1") "Set x 1" =
      parse_errors_to_diagnostics (Parser.parse "Set x 1").errors ∧
    ((⟨DiagnosticSeverity.ERROR, "E000", "aether-parser",
        "Parse error at line 1, column 8: Invalid identifier 'x' - 变量名和函数名必须使用全大写字母和下划线（例如：MY_VAR, CALCULATE_SUM）"⟩ :
        Diagnostic).severity = DiagnosticSeverity.ERROR ∧
      (⟨DiagnosticSeverity.ERROR, "E000", "aether-parser",
        "Parse error at line 1, column 8: Invalid identifier 'x' - 变量名和函数名必须使用全大写字母和下划线（例如：MY_VAR, CALCULATE_SUM）"⟩ :
        Diagnostic).source = "aether-parser") ∧
    analyze (Parser.parse "Set X 1") "Set X 1" = check_naming_convention "Set X 1" :=
  ⟨C9_lint_gating_and_warnings.1 _ _ (by decide),
   C9_lint_gating_and_warnings.2.1 (Parser.parse "Set x 1") _ (by decide),
   C9_lint_gating_and_warnings.2.2.1 _ _ (by decide)⟩

/-- C2: after `Set NAME`, a following `[` token parses according to
its recorded whitespace flag — `Set ARR [1, 2, 3]` (space) is a `Set`
of an array literal, `Set ARR[0] 5` (no space) is a `SetIndex`; and
for every valid name and every continuation of the token stream, a
successful parse yields a `Set` statement when the flag is set and a
`SetIndex` statement on the same identifier when it is not. -/
theorem C2_set_bracket_whitespace_disambiguation :
    parse_program_of_input "Set ARR [1, 2, 3]" =
      .ok [Stmt.Set "ARR" (Expr.Array [Expr.Number "1", Expr.Number "2", Expr.Number "3"])] ∧
    parse_program_of_input "Set ARR[0] 5" =
      .ok [Stmt.SetIndex (Expr.Identifier "ARR") (Expr.Number "0") (Expr.Number "5")] ∧
    (∀ (f : Nat) (n : Str) (b0 b1 ws : Bool) (ln c ln2 c2 : Nat)
        (rest : List TokEntry) (stmt : Stmt) (st' : PState),
      validate_identifier_internal n false ln2 c2 = .ok () →
      parse_set_statement (f + 1)
          ⟨Token.Set, b0, Token.Identifier n, b1, ln, c,
            ⟨Token.LeftBracket, ws, ln2, c2⟩ :: rest⟩ = .ok (stmt, st') →
      ((ws = true → ∃ value, stmt = Stmt.Set n value) ∧
       (ws = false → ∃ index value,
          stmt = Stmt.SetIndex (Expr.Identifier n) index value))) := by
  refine ⟨rfl, rfl, ?_⟩
  intro f n b0 b1 ws ln c ln2 c2 rest stmt st' hv h
  have e1 : (⟨Token.Set, b0, Token.Identifier n, b1, ln, c,
      (⟨Token.LeftBracket, ws, ln2, c2⟩ : TokEntry) :: rest⟩ : PState).advance
      = ⟨Token.Identifier n, b1, Token.LeftBracket, ws, ln2, c2, rest⟩ := rfl
  simp only [parse_set_statement, e1, validate_identifier] at h
  rw [hv] at h
  simp only [Except.bind, bind, PState.advance_cur, PState.advance_cur_ws] at h
  cases ws with
  | true =>
    refine ⟨fun _ => ?_, fun hh => absurd hh (by decide)⟩
    simp only [if_pos rfl, if_true] at h
    split at h
    · exact absurd h (by simp)
    · rename_i v hpe
      simp only [pure, Except.pure, Except.ok.injEq, Prod.mk.injEq] at h
      exact ⟨v.1, h.1.symm⟩
  | false =>
    refine ⟨fun hh => absurd hh (by decide), fun _ => ?_⟩
    simp only [if_true, show (false = true) = False from by simp, if_false] at h
    split at h
    · exact absurd h (by simp)
    · rename_i v hpe
      split at h
      · exact absurd h (by simp)
      · split at h
        · exact absurd h (by simp)
        · rename_i w hpe2
          simp only [pure, Except.pure, Except.ok.injEq, Prod.mk.injEq] at h
          exact ⟨v.1, w.1, h.1.symm⟩

/-- C2 witness: the general whitespace rule applied to the concrete
no-space stream of `Set ARR[0] 5`. -/
theorem C2_witness :
    (false = true → ∃ value,
        Stmt.SetIndex (Expr.Identifier "ARR") (Expr.Number "0") (Expr.Number "5") =
          Stmt.Set "ARR" value) ∧
    (false = false → ∃ index value,
        Stmt.SetIndex (Expr.Identifier "ARR") (Expr.Number "0") (Expr.Number "5") =
          Stmt.SetIndex (Expr.Identifier "ARR") index value) :=
  C2_set_bracket_whitespace_disambiguation.2.2 29 "ARR" false true false 1 8 1 9
    [⟨Token.Number "0", false, 1, 10⟩, ⟨Token.RightBracket, false, 1, 11⟩,
     ⟨Token.Number "5", true, 1, 13⟩, ⟨Token.EOF, false, 1, 14⟩]
    (Stmt.SetIndex (Expr.Identifier "ARR") (Expr.Number "0") (Expr.Number "5"))
    ⟨Token.EOF, false, Token.EOF, false, 1, 15, []⟩ rfl rfl

/-! ## Lemmas about scanning digit runs (for C5) -/

/-- A digit differs from any non-digit character. -/
theorem not_numeric_char {c : Char} (h : char_is_numeric c = true) (d : Char)
    (hd : char_is_numeric d = false) : c ≠ d := by
  intro hc
  subst hc
  rw [h] at hd
  cases hd

/-- A digit is not alphabetic. -/
theorem alphabetic_false_of_numeric {c : Char} (h : char_is_numeric c = true) :
    char_is_alphabetic c = false := by
  simp only [char_is_numeric, Bool.and_eq_true, decide_eq_true_eq] at h
  simp only [char_is_alphabetic, Bool.or_eq_false_iff, Bool.and_eq_false_iff,
    decide_eq_false_iff_not]
  omega

/-- `skip_whitespace` is the identity when the current character is
not whitespace. -/
theorem skip_whitespace_not_ws (l : Lexer) (h1 : l.ch ≠ ' ') (h2 : l.ch ≠ '\t')
    (h3 : l.ch ≠ '\r') : Lexer.skip_whitespace l = (false, l) := by
  unfold Lexer.skip_whitespace
  rw [show l.rest.length + 2 = (l.rest.length + 1) + 1 from rfl]
  simp [Lexer.skip_whitespace_aux, h1, h2, h3]

/-- One iteration of the `read_number` loop on a plain digit. -/
theorem read_number_aux_step (fuel : Nat) (l : Lexer) (acc : List Char)
    (h : char_is_numeric l.ch = true) (hdot : l.ch ≠ '.') :
    Lexer.read_number_aux (fuel + 1) l false acc =
      Lexer.read_number_aux fuel (Lexer.read_char l) false (acc ++ [l.ch]) := by
  rw [Lexer.read_number_aux]
  rw [if_pos (Or.inl h), if_neg (fun hc => hdot hc.1), if_neg hdot]

/-- The `read_number` loop on input that is one digit followed by a
run of digits up to end of input: it consumes everything, never sets
`has_dot`, and accumulates the exact digit list. -/
theorem read_number_aux_all_digits : ∀ (ds : List Char) (l : Lexer) (acc : List Char),
    char_is_numeric l.ch = true → l.rest = ds → (∀ c ∈ ds, char_is_numeric c = true) →
    Lexer.read_number_aux (ds.length + 2) l false acc =
      (false, acc ++ l.ch :: ds, ⟨[], '\x00', l.line, l.column + ds.length + 1⟩) := by
  intro ds
  induction ds with
  | nil =>
    intro l acc h hrest _
    have hdot : l.ch ≠ '.' := not_numeric_char h '.' (by decide)
    have e : Lexer.read_char l = ⟨[], '\x00', l.line, l.column + 1⟩ := by
      simp [Lexer.read_char, hrest]
    rw [show ([] : List Char).length + 2 = 1 + 1 from rfl]
    rw [read_number_aux_step 1 l acc h hdot, e, Lexer.read_number_aux]
    rw [if_neg (by simp [char_is_numeric])]
    simp
  | cons d ds' ih =>
    intro l acc h hrest hall
    have hdot : l.ch ≠ '.' := not_numeric_char h '.' (by decide)
    have hd : char_is_numeric d = true := hall d (List.mem_cons_self d ds')
    have hdnl : d ≠ '\n' := not_numeric_char hd '\n' (by decide)
    have e : Lexer.read_char l = ⟨ds', d, l.line, l.column + 1⟩ := by
      simp [Lexer.read_char, hrest, hdnl]
    rw [show (d :: ds').length + 2 = (ds'.length + 2) + 1 from rfl]
    rw [read_number_aux_step (ds'.length + 2) l acc h hdot, e]
    rw [ih ⟨ds', d, l.line, l.column + 1⟩ (acc ++ [l.ch]) hd rfl
      (fun c hc => hall c (List.mem_cons_of_mem d hc))]
    simp only [Prod.mk.injEq, Lexer.mk.injEq, List.append_assoc, List.singleton_append,
      List.length_cons, true_and, and_true, eq_self_iff_true]
    omega

/-- `read_number` on an all-digit remainder: `BigInteger` holding the
exact digit string when it is longer than 15, `Number` otherwise. -/
theorem read_number_all_digits (l : Lexer) (h : char_is_numeric l.ch = true)
    (hall : ∀ c ∈ l.rest, char_is_numeric c = true) :
    Lexer.read_number l =
      ((if 15 < l.rest.length + 1 then Token.BigInteger (String.mk (l.ch :: l.rest))
        else Token.Number (String.mk (l.ch :: l.rest))),
       ⟨[], '\x00', l.line, l.column + l.rest.length + 1⟩) := by
  unfold Lexer.read_number
  rw [read_number_aux_all_digits l.rest l [] h rfl hall]
  dsimp only
  simp only [List.nil_append,
    show (({ data := l.ch :: l.rest } : String).length = l.rest.length + 1) from by
      simp [String.length],
    eq_self_iff_true, true_and]
  by_cases h15 : 15 < l.rest.length + 1
  · rw [if_pos h15, if_pos h15]
  · rw [if_neg h15, if_neg h15]

/-- `next_token` dispatches a digit to `read_number` and reports no
preceding whitespace. -/
theorem next_token_digit (l : Lexer) (h : char_is_numeric l.ch = true) :
    Lexer.next_token l = ((Lexer.read_number l).1, false, (Lexer.read_number l).2) := by
  have hsw := skip_whitespace_not_ws l (not_numeric_char h ' ' (by decide))
    (not_numeric_char h '\t' (by decide)) (not_numeric_char h '\r' (by decide))
  have halpha := alphabetic_false_of_numeric h
  unfold Lexer.next_token
  rw [show l.rest.length + 2 = (l.rest.length + 1) + 1 from rfl]
  rw [Lexer.next_token_aux]
  rw [hsw]
  dsimp only
  rw [if_neg (not_numeric_char h '+' (by decide)),
    if_neg (not_numeric_char h '-' (by decide)),
    if_neg (not_numeric_char h '*' (by decide)),
    if_neg (not_numeric_char h '/' (by decide)),
    if_neg (not_numeric_char h '%' (by decide)),
    if_neg (not_numeric_char h '=' (by decide)),
    if_neg (not_numeric_char h '!' (by decide)),
    if_neg (not_numeric_char h '<' (by decide)),
    if_neg (not_numeric_char h '>' (by decide)),
    if_neg (not_numeric_char h '&' (by decide)),
    if_neg (not_numeric_char h '|' (by decide)),
    if_neg (not_numeric_char h '(' (by decide)),
    if_neg (not_numeric_char h ')' (by decide)),
    if_neg (not_numeric_char h '\x7b' (by decide)),
    if_neg (not_numeric_char h '\x7d' (by decide)),
    if_neg (not_numeric_char h '[' (by decide)),
    if_neg (not_numeric_char h ']' (by decide)),
    if_neg (not_numeric_char h ',' (by decide)),
    if_neg (not_numeric_char h ':' (by decide)),
    if_neg (not_numeric_char h ';' (by decide)),
    if_neg (not_numeric_char h '"' (by decide)),
    if_neg (not_numeric_char h '\n' (by decide)),
    if_neg (not_numeric_char h '\x00' (by decide)),
    if_neg (by simp [halpha, not_numeric_char h '_' (by decide)]),
    if_pos h]

/-- `next_token` at end of input: the `EOF` token, with the trailing
`read_char` still advancing the column. -/
theorem next_token_at_eof (ln col : Nat) :
    Lexer.next_token ⟨[], '\x00', ln, col⟩ = (Token.EOF, false, ⟨[], '\x00', ln, col + 1⟩) :=
  rfl

/-- Tokenizing an all-digit input yields one numeric token holding the
exact digit string — `BigInteger` over 15 digits, `Number` otherwise —
followed by `EOF`. -/
theorem tokenize_all_digits (ds : List Char) (hne : ds ≠ [])
    (hall : ∀ c ∈ ds, char_is_numeric c = true) :
    tokenize (String.mk ds) =
      [⟨(if 15 < ds.length then Token.BigInteger (String.mk ds)
         else Token.Number (String.mk ds)), false, 1, ds.length + 1⟩,
       ⟨Token.EOF, false, 1, ds.length + 2⟩] := by
  cases ds with
  | nil => exact absurd rfl hne
  | cons d ds' =>
    have hd : char_is_numeric d = true := hall d (List.mem_cons_self d ds')
    have hdnl : d ≠ '\n' := not_numeric_char hd '\n' (by decide)
    have hall' : ∀ c ∈ ds', char_is_numeric c = true :=
      fun c hc => hall c (List.mem_cons_of_mem d hc)
    have e0 : Lexer.new (String.mk (d :: ds')) = ⟨ds', d, 1, 1⟩ := by
      simp [Lexer.new, Lexer.read_char, hdnl]
    have hlen : (String.mk (d :: ds')).length = ds'.length + 1 := by simp [String.length]
    unfold tokenize
    rw [hlen, e0]
    simp only [List.length_cons]
    rw [show ds'.length + 1 + 2 = (ds'.length + 2) + 1 from rfl]
    rw [tokenize_aux]
    rw [next_token_digit ⟨ds', d, 1, 1⟩ hd, read_number_all_digits ⟨ds', d, 1, 1⟩ hd hall']
    dsimp only
    by_cases h15 : 15 < ds'.length + 1
    · rw [if_pos h15]
      rw [if_neg (show ¬(Token.BigInteger (String.mk (d :: ds')) = Token.EOF) from by simp)]
      rw [show ds'.length + 2 = (ds'.length + 1) + 1 from rfl]
      rw [tokenize_aux, next_token_at_eof]
      dsimp only
      rw [if_pos rfl]
      simp only [List.cons.injEq, TokEntry.mk.injEq, and_true, true_and]
      omega
    · rw [if_neg h15]
      rw [if_neg (show ¬(Token.Number (String.mk (d :: ds')) = Token.EOF) from by simp)]
      rw [show ds'.length + 2 = (ds'.length + 1) + 1 from rfl]
      rw [tokenize_aux, next_token_at_eof]
      dsimp only
      rw [if_pos rfl]
      simp only [List.cons.injEq, TokEntry.mk.injEq, and_true, true_and]
      omega

/-- C5: every digit-only literal longer than 15 digits scans to
`BigInteger` holding the exact digit string (never `Number`); every
digit-only literal of at most 15 digits scans to `Number`; the literal
of 16 nines scans to `BigInteger("9999999999999999")`, and a literal
with a decimal point scans to `Number` (`3.14`, whose `f64` value is
abstracted as the literal string in this embedding). -/
theorem C5_biginteger_threshold :
    (∀ ds : List Char, ds ≠ [] → (∀ c ∈ ds, char_is_numeric c = true) → 15 < ds.length →
      tokenize (String.mk ds) =
        [⟨Token.BigInteger (String.mk ds), false, 1, ds.length + 1⟩,
         ⟨Token.EOF, false, 1, ds.length + 2⟩]) ∧
    (∀ ds : List Char, ds ≠ [] → (∀ c ∈ ds, char_is_numeric c = true) → ds.length ≤ 15 →
      tokenize (String.mk ds) =
        [⟨Token.Number (String.mk ds), false, 1, ds.length + 1⟩,
         ⟨Token.EOF, false, 1, ds.length + 2⟩]) ∧
    tokenize "9999999999999999" =
      [⟨Token.BigInteger "9999999999999999", false, 1, 17⟩, ⟨Token.EOF, false, 1, 18⟩] ∧
    tokenize "3.14" = [⟨Token.Number "3.14", false, 1, 5⟩, ⟨Token.EOF, false, 1, 6⟩] := by
  refine ⟨?_, ?_, rfl, rfl⟩
  · intro ds hne hall hlen
    rw [tokenize_all_digits ds hne hall, if_pos hlen]
  · intro ds hne hall hlen
    rw [tokenize_all_digits ds hne hall, if_neg (by omega)]

/-- C5 witness: the two universal statements applied to a 16-digit
and a 2-digit literal. -/
theorem C5_witness :
    tokenize (String.mk ['9','9','9','9','9','9','9','9','9','9','9','9','9','9','9','9']) =
      [⟨Token.BigInteger
          (String.mk ['9','9','9','9','9','9','9','9','9','9','9','9','9','9','9','9']),
        false, 1, 17⟩, ⟨Token.EOF, false, 1, 18⟩] ∧
    tokenize (String.mk ['4', '2']) =
      [⟨Token.Number (String.mk ['4', '2']), false, 1, 3⟩, ⟨Token.EOF, false, 1, 4⟩] :=
  ⟨C5_biginteger_threshold.1 _ (by decide) (by decide) (by decide),
   C5_biginteger_threshold.2.1 _ (by decide) (by decide) (by decide)⟩

end Aether
